import Mathlib

/-!
Verification development for the General Query Executor
(storage/innobase/row/row0query.cc, class QueryExecutor).

The storage-engine collaborators (B-tree cursor, lock manager, undo-log
version builder, mini-transactions) are out of scope of the repository's
core; their outcomes are modelled as explicit oracle queues inside a
`QState` record, while the executor's own control flow is translated
line by line from the source.  Machine integers in the source only ever
feed equality and zero tests here, so they are modelled as `Nat`.
-/

set_option autoImplicit false

/-- Error codes of the storage engine (`dberr_t`), restricted to the
constructors the query executor distinguishes, plus two generic hard
errors standing for the rest of the enumeration. -/
inductive dberr where
  | DB_SUCCESS
  | DB_SUCCESS_LOCKED_REC
  | DB_LOCK_WAIT
  | DB_LOCK_WAIT_TIMEOUT
  | DB_RECORD_NOT_FOUND
  | DB_DEADLOCK
  | DB_OVERFLOW
  | DB_UNDERFLOW
  | DB_CORRUPTION
  | DB_ERROR
  deriving DecidableEq, Repr, Inhabited

/-- Three-way comparator verdict of the RecordCallback protocol
(`RecordCompareAction` in row0query.h). -/
inductive RecordCompareAction where
  | PROCESS
  | SKIP
  | STOP
  deriving DecidableEq, Repr, Inhabited

/-- Lock-wait classification of the query thread (`que_thr_t::lock_state`). -/
inductive LockSt where
  | QUE_THR_LOCK_NOLOCK
  | QUE_THR_LOCK_ROW
  | QUE_THR_LOCK_TABLE
  deriving DecidableEq, Repr, Inhabited

/-- A prior row version, as handed back by the undo-chain version builder
(`row_vers_build_for_consistent_read`): key fields and delete-mark, plus
the field sizes from which `rec_get_offsets` re-derives offsets. -/
structure VRec where
  key : Nat
  deleted : Bool
  fieldSizes : List Nat
  deriving DecidableEq, Repr, Inhabited

/-- A clustered-index record: its key (full-tuple comparison collapses to
key equality), delete-mark flag, creator transaction id (`DB_TRX_ID`),
the `REC_INFO_MIN_REC_FLAG` bit, the on-page field sizes (standing for
the record's offsets), and the answer the undo-log version builder would
give for this record (`versErr`, `versRec`), modelling the external
version chain. -/
structure Rec where
  key : Nat
  deleted : Bool
  trx_id : Nat
  minRec : Bool
  fieldSizes : List Nat
  versErr : dberr
  versRec : Option VRec
  deriving DecidableEq, Repr, Inhabited

/-- Default record used with `List.getD`; positions are always guarded by
length checks mirroring `btr_pcur_is_on_user_rec`. -/
def dRec : Rec :=
  { key := 0, deleted := false, trx_id := 0, minRec := false,
    fieldSizes := [], versErr := .DB_SUCCESS, versRec := none }

/-- A secondary-index record: its own key plus the clustered key extracted
by `row_build_row_ref`. -/
structure SRec where
  key : Nat
  clustKey : Nat
  deriving DecidableEq, Repr, Inhabited

/-- The transaction context (`trx_t`) as the executor sees it: whether a
consistent read view is open, the view's visibility predicate
(`ReadView::changes_visible`), the error state written by `handle_wait`,
whether a lock wait is pending (`trx->lock.wait_thr`), and whether the
transaction has been started. -/
structure Trx where
  viewOpen : Bool
  visible : Nat → Bool
  error_state : dberr
  wait_thr : Bool
  started : Bool

/-- The caller-supplied RecordCallback: `compare_record` maps the search
tuple (if any) and the visited record's key to a verdict;
`process_record` receives the record's key and its (re-derived) offsets
and returns the continue-scanning flag. -/
structure RecordCallback where
  compare : Option Nat → Nat → RecordCompareAction
  process : Nat → List Nat → Bool

/-- World state threaded through every operation: the clustered and
secondary indexes, the transaction, the thread's lock state, oracle
queues for each storage-engine primitive the executor calls, and
bookkeeping traces (mini-transaction starts/commits, version-builder
invocations, lock requests, rows handed to `process_record`, loop-body
visits, the first error-path exit taken, and whether a processing
callback halted a scan). -/
structure QState where
  recs : List Rec
  secRecs : List SRec
  trx : Option Trx
  thrLock : LockSt
  openErrs : List dberr
  lockResults : List dberr
  markResults : List dberr
  waitResults : List dberr
  insertResults : List dberr
  inPlaceResults : List dberr
  optResults : List dberr
  pessResults : List (dberr × Bool)
  externResults : List dberr
  cursorPos : Nat
  mtrStarts : Nat
  mtrCommits : Nat
  mtrOpen : Bool
  versCalls : Nat
  lockCalls : Nat
  processedLog : List (Nat × List Nat)
  visited : List Nat
  cbStopped : Bool
  firstErr : Option dberr

/-- Pop the head of an oracle queue; an exhausted queue answers
`DB_SUCCESS` (the uncontended default). -/
def takeOracle (l : List dberr) : dberr × List dberr :=
  (l.headD .DB_SUCCESS, l.tail)

/-- `mtr_t::start` (with `set_named_space`): opens the mini-transaction. -/
def mtrStart (s : QState) : QState :=
  { s with mtrStarts := s.mtrStarts + 1, mtrOpen := true }

/-- `mtr_t::commit`: closes the mini-transaction, releasing its latches. -/
def mtrCommit (s : QState) : QState :=
  { s with mtrCommits := s.mtrCommits + 1, mtrOpen := false }

/-- Record the first error-path exit taken by an operation. -/
def recordErr (e : dberr) (s : QState) : QState :=
  if s.firstErr = none then { s with firstErr := some e } else s

/-- Record an exit error only when it is an actual error. -/
def recordErrIf (e : dberr) (s : QState) : QState :=
  if e ≠ .DB_SUCCESS then recordErr e s else s

/-- Whether `m_mtr.trx` is non-null and its read view is open. -/
def viewIsOpen : Option Trx → Bool
  | none => false
  | some t => t.viewOpen

/-- `ReadView::changes_visible` of the current transaction (only consulted
under an open view). -/
def trxVisible : Option Trx → Nat → Bool
  | none, _ => true
  | some t, id => t.visible id

/-- Result of one MVCC resolution step: the storage error, the
continue-scanning flag, the record (key and re-derived offsets) handed to
`process_record` if any, and whether the version builder was consulted. -/
structure MvccResult where
  error : dberr
  continue_processing : Bool
  processed : Option (Nat × List Nat)
  versCalled : Bool
  deriving DecidableEq, Repr, Inhabited

namespace QueryExecutor

/-- QueryExecutor::process_record_with_mvcc (row0query.cc lines 548-595),
translated statement by statement.  `cont0` is the value of the caller's
`continue_processing` flag on entry (both call sites pass `true`). -/
def process_record_with_mvcc (trx : Option Trx) (r : Rec) (cb : RecordCallback)
    (cont0 : Bool) : MvccResult :=
  match trx with
  | some t =>
    if t.viewOpen then
      if r.trx_id ≠ 0 ∧ t.visible r.trx_id = false then
        if r.versErr = .DB_SUCCESS then
          match r.versRec with
          | some v =>
            if v.deleted then
              { error := .DB_SUCCESS, continue_processing := cont0,
                processed := none, versCalled := true }
            else
              { error := .DB_SUCCESS,
                continue_processing := cb.process v.key v.fieldSizes,
                processed := some (v.key, v.fieldSizes), versCalled := true }
          | none =>
            { error := .DB_SUCCESS, continue_processing := cont0,
              processed := none, versCalled := true }
        else
          { error := r.versErr, continue_processing := false,
            processed := none, versCalled := true }
      else
        if r.deleted then
          { error := .DB_SUCCESS, continue_processing := cont0,
            processed := none, versCalled := false }
        else
          { error := .DB_SUCCESS,
            continue_processing := cb.process r.key r.fieldSizes,
            processed := some (r.key, r.fieldSizes), versCalled := false }
    else
      if r.deleted then
        { error := .DB_SUCCESS, continue_processing := cont0,
          processed := none, versCalled := false }
      else
        { error := .DB_SUCCESS,
          continue_processing := cb.process r.key r.fieldSizes,
          processed := some (r.key, r.fieldSizes), versCalled := false }
  | none =>
    if r.deleted then
      { error := .DB_SUCCESS, continue_processing := cont0,
        processed := none, versCalled := false }
    else
      { error := .DB_SUCCESS,
        continue_processing := cb.process r.key r.fieldSizes,
        processed := some (r.key, r.fieldSizes), versCalled := false }

end QueryExecutor

/-- The spec's wording of visibility under an open view: created by a
transaction visible to the snapshot, or creator id zero. -/
def specVisibleUnderView (t : Trx) (r : Rec) : Prop :=
  r.trx_id = 0 ∨ t.visible r.trx_id = true

instance (t : Trx) (r : Rec) : Decidable (specVisibleUnderView t r) := by
  unfold specVisibleUnderView; infer_instance

/-- Process the given current or historical record as §4.3 of the spec
describes: hand it to the processing callback iff it is not delete-marked,
with no storage error. -/
def mvccSpecProcess (key : Nat) (sizes : List Nat) (deleted : Bool)
    (cb : RecordCallback) (cont0 : Bool) (vc : Bool) : MvccResult :=
  if deleted then
    { error := .DB_SUCCESS, continue_processing := cont0,
      processed := none, versCalled := vc }
  else
    { error := .DB_SUCCESS, continue_processing := cb.process key sizes,
      processed := some (key, sizes), versCalled := vc }

/-- MVCC resolution as §4.3 of the spec words it: with no open read view
the current record is visible subject to its delete-mark; under an open
view a record visible to the snapshot (or with creator id zero) is
treated likewise; an invisible record has its prior version built from
the undo chain, a found version is processed iff that version is not
delete-marked with offsets re-derived on the version, no version found
means no processing and scanning continues, and a builder hard error
clears the continue flag and is surfaced. -/
def mvcc_spec (trx : Option Trx) (r : Rec) (cb : RecordCallback)
    (cont0 : Bool) : MvccResult :=
  match trx with
  | none => mvccSpecProcess r.key r.fieldSizes r.deleted cb cont0 false
  | some t =>
    if ¬ t.viewOpen then
      mvccSpecProcess r.key r.fieldSizes r.deleted cb cont0 false
    else if specVisibleUnderView t r then
      mvccSpecProcess r.key r.fieldSizes r.deleted cb cont0 false
    else if r.versErr ≠ .DB_SUCCESS then
      { error := r.versErr, continue_processing := false,
        processed := none, versCalled := true }
    else
      match r.versRec with
      | none =>
        { error := .DB_SUCCESS, continue_processing := cont0,
          processed := none, versCalled := true }
      | some v => mvccSpecProcess v.key v.fieldSizes v.deleted cb cont0 true

/-- Consume one answer of the `btr_pcur_open*` oracle. -/
def takeOpen (s : QState) : dberr × QState :=
  let p := takeOracle s.openErrs
  (p.1, { s with openErrs := p.2 })

/-- Consume one answer of `lock_clust_rec_read_check_and_lock`, counting
the lock request. -/
def takeLock (s : QState) : dberr × QState :=
  let p := takeOracle s.lockResults
  (p.1, { s with lockResults := p.2, lockCalls := s.lockCalls + 1 })

/-- Consume one answer of `btr_cur_del_mark_set_clust_rec`. -/
def takeMark (s : QState) : dberr × QState :=
  let p := takeOracle s.markResults
  (p.1, { s with markResults := p.2 })

/-- Consume one answer of `lock_wait`. -/
def takeWait (s : QState) : dberr × QState :=
  let p := takeOracle s.waitResults
  (p.1, { s with waitResults := p.2 })

/-- Consume one answer of `row_ins_clust_index_entry`. -/
def takeInsert (s : QState) : dberr × QState :=
  let p := takeOracle s.insertResults
  (p.1, { s with insertResults := p.2 })

/-- Note that the scan loop body ran on the user record at `pos`. -/
def logVisit (pos : Nat) (s : QState) : QState :=
  { s with visited := s.visited ++ [pos] }

/-- `trx_start_if_not_started` followed by `ReadView::open`, guarded as
in the source by `trx && !trx->read_view.is_open()`. -/
def openTrxViewState (s : QState) : QState :=
  { s with trx := s.trx.map fun t =>
      if t.viewOpen then t else { t with started := true, viewOpen := true } }

/-- `btr_pcur_open_on_user_rec` positioning (PAGE_CUR_GE): index of the
first record whose key is ≥ the search tuple (`length` when none is,
leaving the cursor past the last user record). -/
def lowerBound (recs : List Rec) (t : Nat) : Nat :=
  recs.findIdx fun r => t ≤ r.key

/-- PAGE_CUR_GE positioning on the secondary index. -/
def lowerBoundSec (recs : List SRec) (t : Nat) : Nat :=
  recs.findIdx fun r => t ≤ r.key

/-- `btr_pcur_open` positioning with PAGE_CUR_LE: index of the last
record whose key is ≤ the search tuple, if any. -/
def lePos (recs : List Rec) (t : Nat) : Option Nat :=
  match recs.findIdx? fun r => decide (t < r.key) with
  | some 0 => none
  | some (i + 1) => some i
  | none => if recs.length = 0 then none else some (recs.length - 1)

namespace QueryExecutor

/-- QueryExecutor::handle_wait (row0query.cc lines 66-82): record the
pending error on the transaction, classify the thread's wait as table or
row, and if a wait request is outstanding block on `lock_wait`. -/
def handle_wait (err : dberr) (table_lock : Bool) (s : QState) :
    dberr × QState :=
  let s := { s with
    trx := s.trx.map (fun (t : Trx) => { t with error_state := err }),
    thrLock := if table_lock then LockSt.QUE_THR_LOCK_TABLE
               else LockSt.QUE_THR_LOCK_ROW }
  if (s.trx.map Trx.wait_thr).getD false then
    let p := takeWait s
    let wait_err := p.1
    let s := p.2
    let err := if wait_err = .DB_LOCK_WAIT_TIMEOUT then wait_err else err
    if wait_err = .DB_SUCCESS then
      (.DB_SUCCESS, { s with thrLock := .QUE_THR_LOCK_NOLOCK })
    else (err, s)
  else (err, s)

end QueryExecutor

/-- Outcome of one pass of `delete_record`'s scan loop: `done` reaches
`func_exit` with the current `err` value, `wait` hit `DB_LOCK_WAIT`. -/
inductive DelScanOut where
  | done (err : dberr) (cnt : Nat) (s : QState)
  | wait (cnt : Nat) (s : QState)

/-- The state carried by a `DelScanOut`. -/
def DelScanOut.state : DelScanOut → QState
  | .done _ _ s => s
  | .wait _ s => s

namespace QueryExecutor

/-- The `while (btr_pcur_is_on_user_rec)` loop of
QueryExecutor::delete_record (row0query.cc lines 99-139): skip
delete-marked records, stop at the first full-tuple mismatch, lock and
delete-mark matches.  `fuel` is the loop bound; callers pass
`s.recs.length`, which suffices since the position strictly increases. -/
def dr_scan (tuple : Nat) : Nat → Nat → Nat → QState → DelScanOut
  | 0, _, cnt, s => .done .DB_SUCCESS cnt s
  | fuel + 1, pos, cnt, s =>
    if pos < s.recs.length then
      let r := s.recs.getD pos dRec
      let s := logVisit pos s
      if r.deleted then dr_scan tuple fuel (pos + 1) cnt s
      else if tuple ≠ r.key then .done .DB_SUCCESS cnt s
      else
        let lp := takeLock s
        let lerr := lp.1
        let s := lp.2
        if lerr = .DB_LOCK_WAIT then .wait cnt s
        else if lerr ≠ .DB_SUCCESS ∧ lerr ≠ .DB_SUCCESS_LOCKED_REC then
          .done lerr cnt s
        else
          let mp := takeMark s
          let merr := mp.1
          let s := mp.2
          if merr ≠ .DB_SUCCESS then .done merr cnt s
          else
            let s := { s with recs := s.recs.set pos { r with deleted := true } }
            dr_scan tuple fuel (pos + 1) (cnt + 1) s
    else .done .DB_SUCCESS cnt s

/-- `func_exit` of delete_record (row0query.cc lines 140-144): commit the
mini-transaction, propagate an error, else classify by the count of rows
delete-marked. -/
def delFuncExit (err : dberr) (cnt : Nat) (s : QState) :
    dberr × Nat × QState :=
  let s := mtrCommit s
  if err ≠ .DB_SUCCESS then (err, cnt, recordErr err s)
  else if 0 < cnt then (.DB_SUCCESS, cnt, s)
  else (.DB_RECORD_NOT_FOUND, cnt, s)

/-- QueryExecutor::delete_record (row0query.cc lines 84-145) with the
backward `goto retry` modelled by `rfuel`; `none` means the retry fuel
ran out.  `cnt` is `deleted_count`, declared before the retry label and
hence accumulated across lock-wait retries. -/
def delete_record_go (tuple : Nat) : Nat → Nat → QState →
    Option (dberr × Nat × QState)
  | 0, _, _ => none
  | rfuel + 1, cnt, s =>
    let s := mtrStart s
    let op := takeOpen s
    let oerr := op.1
    let s := op.2
    if oerr ≠ .DB_SUCCESS then some (delFuncExit oerr cnt s)
    else
      match dr_scan tuple s.recs.length (lowerBound s.recs tuple) cnt s with
      | .done err cnt2 s2 => some (delFuncExit err cnt2 s2)
      | .wait cnt2 s2 =>
        let s2 := mtrCommit s2
        let wp := handle_wait .DB_LOCK_WAIT false s2
        let werr := wp.1
        let s3 := wp.2
        if werr ≠ .DB_SUCCESS then some (werr, cnt2, recordErr werr s3)
        else delete_record_go tuple rfuel cnt2 s3

/-- QueryExecutor::delete_record entry point. -/
def delete_record (tuple : Nat) (rfuel : Nat) (s : QState) :
    Option (dberr × Nat × QState) :=
  delete_record_go tuple rfuel 0 s

end QueryExecutor

/-- Visibility rejection test of select_for_update (row0query.cc lines
243-251): under an open read view, a nonzero creator transaction id that
the view cannot see decides "not found". -/
def visFails : Option Trx → Rec → Bool
  | none, _ => false
  | some t, r =>
    t.viewOpen && decide (r.trx_id ≠ 0) && ! t.visible r.trx_id

/-- Append the record handed to `process_record` (if any) to the log. -/
def logProcessed (p : Option (Nat × List Nat)) (s : QState) : QState :=
  match p with
  | some q => { s with processedLog := s.processedLog ++ [q] }
  | none => s

/-- Fold one MVCC resolution step's traces into the state: count a
version-builder call, log the processed record, and note when the
processing callback itself halted the scan. -/
def mvccFold (m : MvccResult) (s : QState) : QState :=
  let s := if m.versCalled then { s with versCalls := s.versCalls + 1 } else s
  let s := logProcessed m.processed s
  if m.processed.isSome ∧ m.continue_processing = false then
    { s with cbStopped := true }
  else s

namespace QueryExecutor

/-- QueryExecutor::select_for_update (row0query.cc lines 208-292): open
the read view if needed, position on the first record ≥ the tuple, reject
on missing record, invisible creator, or key mismatch, take an exclusive
non-gap row lock (handling DB_LOCK_WAIT via handle_wait), then drive the
optional callback.  On the DB_SUCCESS return the mini-transaction is
left open for the caller. -/
def select_for_update (tuple : Nat) (callback : Option RecordCallback)
    (s : QState) : dberr × QState :=
  let s := mtrStart s
  let s := openTrxViewState s
  let op := takeOpen s
  let oerr := op.1
  let s := op.2
  if oerr ≠ .DB_SUCCESS then (oerr, recordErr oerr (mtrCommit s))
  else
    let pos := lowerBound s.recs tuple
    let s := { s with cursorPos := pos }
    if pos < s.recs.length then
      let r := s.recs.getD pos dRec
      if visFails s.trx r then
        (.DB_RECORD_NOT_FOUND, recordErr .DB_RECORD_NOT_FOUND (mtrCommit s))
      else if tuple ≠ r.key then
        (.DB_RECORD_NOT_FOUND, recordErr .DB_RECORD_NOT_FOUND (mtrCommit s))
      else
        let lp := takeLock s
        let lerr := lp.1
        let s := lp.2
        if lerr = .DB_LOCK_WAIT then
          let s := mtrCommit s
          let wp := handle_wait .DB_LOCK_WAIT false s
          let werr := wp.1
          let s := wp.2
          if werr ≠ .DB_SUCCESS then (werr, recordErr werr s)
          else (.DB_LOCK_WAIT, s)
        else if lerr ≠ .DB_SUCCESS ∧ lerr ≠ .DB_SUCCESS_LOCKED_REC then
          (lerr, recordErr lerr (mtrCommit s))
        else
          match callback with
          | none => (.DB_SUCCESS, s)
          | some cb =>
            let action := cb.compare (some tuple) r.key
            let s := (if action = .PROCESS then
                logProcessed (some (r.key, r.fieldSizes)) s else s)
            if action = .SKIP then
              (.DB_RECORD_NOT_FOUND,
               recordErr .DB_RECORD_NOT_FOUND (mtrCommit s))
            else (.DB_SUCCESS, s)
    else (.DB_RECORD_NOT_FOUND, recordErr .DB_RECORD_NOT_FOUND (mtrCommit s))

end QueryExecutor

/-- An entry of the update descriptor (`upd_field_t`): the target field
position and the new value's length. -/
structure UpdField where
  field_no : Nat
  new_len : Nat
  deriving DecidableEq, Repr, Inhabited

/-- `UNIV_SQL_NULL`: the length value marking an SQL NULL. -/
def UNIV_SQL_NULL : Nat := 4294967295

/-- Which update primitives ran during update_record. -/
structure UpdTrace where
  inPlaceCalled : Bool
  optCalled : Bool
  pessCalled : Bool
  externCalled : Bool
  deriving DecidableEq, Repr, Inhabited

/-- The size-change loop of update_record (row0query.cc lines 306-321):
true iff some updated field inside the record changes its stored length
(new length neither SQL NULL nor equal to the old length), which clears
UPD_NODE_NO_SIZE_CHANGE and forces the escalation path. -/
def anyFieldSizeChange (sizes : List Nat) (upd : List UpdField) : Bool :=
  upd.any fun f =>
    decide (f.field_no < sizes.length) &&
    decide (f.new_len ≠ UNIV_SQL_NULL) &&
    decide (f.new_len ≠ sizes.getD f.field_no 0)

/-- Field sizes (offsets) of the record under the persistent cursor. -/
def cursorSizes (s : QState) : List Nat :=
  (s.recs.getD s.cursorPos dRec).fieldSizes

/-- Pop the optimistic-update oracle. -/
def takeOpt (s : QState) : dberr × QState :=
  let p := takeOracle s.optResults
  (p.1, { s with optResults := p.2 })

/-- Pop the in-place-update oracle. -/
def takeInPlace (s : QState) : dberr × QState :=
  let p := takeOracle s.inPlaceResults
  (p.1, { s with inPlaceResults := p.2 })

/-- Pop the pessimistic-update oracle: a status plus whether a big-record
remainder was produced. -/
def takePess (s : QState) : (dberr × Bool) × QState :=
  ((s.pessResults.headD (.DB_SUCCESS, false)),
   { s with pessResults := s.pessResults.tail })

/-- Pop the `btr_store_big_rec_extern_fields` oracle. -/
def takeExtern (s : QState) : dberr × QState :=
  let p := takeOracle s.externResults
  (p.1, { s with externResults := p.2 })

namespace QueryExecutor

/-- The escalation chain of update_record (row0query.cc lines 328-353):
optimistic update; on DB_OVERFLOW or DB_UNDERFLOW a pessimistic update;
on pessimistic success with a big-record remainder, external storage of
the overflow fields. -/
def update_escalate (ipc : Bool) (s : QState) : dberr × UpdTrace × QState :=
  let op := takeOpt s
  let e2 := op.1
  let s := op.2
  if e2 = .DB_OVERFLOW ∨ e2 = .DB_UNDERFLOW then
    let pp := takePess s
    let e3 := pp.1.1
    let big := pp.1.2
    let s := pp.2
    if e3 = .DB_SUCCESS ∧ big = true then
      let xp := takeExtern s
      (xp.1, ⟨ipc, true, true, true⟩, xp.2)
    else (e3, ⟨ipc, true, true, false⟩, s)
  else (e2, ⟨ipc, true, false, false⟩, s)

/-- QueryExecutor::update_record (row0query.cc lines 294-355): decide the
strategy from the size-change scan; with no size change attempt the
in-place update, escalating only if it reports DB_OVERFLOW; otherwise
skip in-place and escalate directly. -/
def update_record (upd : List UpdField) (s : QState) :
    dberr × UpdTrace × QState :=
  if anyFieldSizeChange (cursorSizes s) upd = false then
    let ip := takeInPlace s
    let e1 := ip.1
    let s := ip.2
    if e1 = .DB_OVERFLOW then update_escalate true s
    else (e1, ⟨true, false, false, false⟩, s)
  else update_escalate false s

/-- QueryExecutor::insert_record (row0query.cc lines 53-58), an oracle
call to `row_ins_clust_index_entry`. -/
def insert_record (s : QState) : dberr × QState := takeInsert s

/-- QueryExecutor::replace_record (row0query.cc lines 357-377): upsert
with an unbounded `goto retry_again` on DB_LOCK_WAIT, modelled by fuel. -/
def replace_record (tuple : Nat) (upd : List UpdField) :
    Nat → QState → Option (dberr × QState)
  | 0, _ => none
  | fuel + 1, s =>
    let sp := select_for_update tuple none s
    let err := sp.1
    let s := sp.2
    if err = .DB_SUCCESS then
      let up := update_record upd s
      some (up.1, mtrCommit up.2.2)
    else if err = .DB_RECORD_NOT_FOUND then
      let ip := insert_record s
      some (ip.1, ip.2)
    else if err = .DB_LOCK_WAIT then replace_record tuple upd fuel s
    else some (err, s)

end QueryExecutor

/-- Outcome of the scan loop of read: `early` is the committing early
return on a resolution error or a halting callback, `finished` is loop
exit by STOP verdict or cursor exhaustion. -/
inductive ReadScanOut where
  | early (err : dberr) (m : Nat) (s : QState)
  | finished (m : Nat) (s : QState)

/-- The state carried by a `ReadScanOut`. -/
def ReadScanOut.state : ReadScanOut → QState
  | .early _ _ s => s
  | .finished _ s => s

namespace QueryExecutor

/-- The scan loop of QueryExecutor::read (row0query.cc lines 413-438):
evaluate the comparator on each record; on PROCESS run MVCC resolution
and return early on an error or a false continue flag, otherwise count
the match; SKIP advances, STOP ends the scan. -/
def read_scan (tuple : Option Nat) (cb : RecordCallback) :
    Nat → Nat → Nat → QState → ReadScanOut
  | 0, _, m, s => .finished m s
  | fuel + 1, pos, m, s =>
    if pos < s.recs.length then
      let r := s.recs.getD pos dRec
      match cb.compare tuple r.key with
      | .PROCESS =>
        let res := process_record_with_mvcc s.trx r cb true
        let s := mvccFold res s
        if res.error ≠ .DB_SUCCESS ∨ res.continue_processing = false then
          .early res.error m (recordErrIf res.error s)
        else read_scan tuple cb fuel (pos + 1) (m + 1) s
      | .STOP => .finished m s
      | .SKIP => read_scan tuple cb fuel (pos + 1) m s
    else .finished m s

/-- QueryExecutor::read (row0query.cc lines 379-441): open the read view
if needed, position by the tuple (or on the first leaf record for a full
scan), run the scan loop, commit, and classify: DB_SUCCESS when a match
was counted or no search tuple was given, DB_RECORD_NOT_FOUND otherwise.
Returns the status, the final `match_count`, and the state. -/
def read (tuple : Option Nat) (cb : RecordCallback) (s : QState) :
    dberr × Nat × QState :=
  let s := mtrStart s
  let s := openTrxViewState s
  let op := takeOpen s
  let oerr := op.1
  let s := op.2
  if oerr ≠ .DB_SUCCESS then (oerr, 0, recordErr oerr (mtrCommit s))
  else
    let pos := match tuple with
      | some t => lowerBound s.recs t
      | none => 0
    match read_scan tuple cb s.recs.length pos 0 s with
    | .early err m s2 => (err, m, mtrCommit s2)
    | .finished m s2 =>
      (if 0 < m ∨ tuple = none then .DB_SUCCESS else .DB_RECORD_NOT_FOUND,
       m, mtrCommit s2)

/-- QueryExecutor::lookup_clustered_record (row0query.cc lines 504-546):
build the clustered key from the secondary record, open a separate
cursor with PAGE_CUR_LE under a mini-transaction savepoint, verify the
exact key, run MVCC resolution, and roll back to the savepoint.  Returns
(status, continue flag, match count, state); the status is the cursor
open error unless MVCC resolution failed. -/
def lookup_clustered_record (cb : RecordCallback) (sr : SRec) (m : Nat)
    (s : QState) : dberr × Bool × Nat × QState :=
  let op := takeOpen s
  let oerr := op.1
  let s := op.2
  if oerr = .DB_SUCCESS then
    match lePos s.recs sr.clustKey with
    | some cpos =>
      let cr := s.recs.getD cpos dRec
      if cr.key = sr.clustKey then
        let res := process_record_with_mvcc s.trx cr cb true
        let s := mvccFold res s
        if res.error ≠ .DB_SUCCESS then
          (res.error, res.continue_processing, m, s)
        else (.DB_SUCCESS, res.continue_processing, m + 1, s)
      else (.DB_SUCCESS, true, m, s)
    | none => (.DB_SUCCESS, true, m, s)
  else (oerr, true, m, s)

/-- The scan loop of QueryExecutor::read_by_index (row0query.cc lines
474-499): like read's loop over the secondary index, with the
secondary-to-clustered lookup on each PROCESS verdict. -/
def rbi_scan (tuple : Nat) (cb : RecordCallback) :
    Nat → Nat → Nat → QState → ReadScanOut
  | 0, _, m, s => .finished m s
  | fuel + 1, pos, m, s =>
    if pos < s.secRecs.length then
      let sr := s.secRecs.getD pos ⟨0, 0⟩
      match cb.compare (some tuple) sr.key with
      | .PROCESS =>
        let lr := lookup_clustered_record cb sr m s
        let err := lr.1
        let cont := lr.2.1
        let m2 := lr.2.2.1
        let s := lr.2.2.2
        if err ≠ .DB_SUCCESS ∨ cont = false then
          .early err m2 (recordErrIf err s)
        else rbi_scan tuple cb fuel (pos + 1) m2 s
      | .STOP => .finished m s
      | .SKIP => rbi_scan tuple cb fuel (pos + 1) m s
    else .finished m s

/-- QueryExecutor::read_by_index (row0query.cc lines 443-502): scan the
secondary index, resolving each PROCESS verdict through the clustered
lookup; DB_SUCCESS iff some clustered match was counted. -/
def read_by_index (tuple : Nat) (cb : RecordCallback) (s : QState) :
    dberr × Nat × QState :=
  let s := mtrStart s
  let s := openTrxViewState s
  let op := takeOpen s
  let oerr := op.1
  let s := op.2
  if oerr ≠ .DB_SUCCESS then (oerr, 0, recordErr oerr (mtrCommit s))
  else
    match rbi_scan tuple cb s.secRecs.length
        (lowerBoundSec s.secRecs tuple) 0 s with
    | .early err m s2 => (err, m, mtrCommit s2)
    | .finished m s2 =>
      (if 0 < m then .DB_SUCCESS else .DB_RECORD_NOT_FOUND, m, mtrCommit s2)

end QueryExecutor

/-- Outcome of one pass of delete_all's scan loop. -/
inductive DaScanOut where
  | done (err : dberr) (s : QState)
  | wait (s : QState)

/-- The state carried by a `DaScanOut`. -/
def DaScanOut.state : DaScanOut → QState
  | .done _ s => s
  | .wait s => s

namespace QueryExecutor

/-- The scan loop of QueryExecutor::delete_all (row0query.cc lines
162-202): delete-mark every record that is neither already deleted nor
the minimum record, with the same lock discipline as delete_record but
no comparison step. -/
def da_scan : Nat → Nat → QState → DaScanOut
  | 0, _, s => .done .DB_SUCCESS s
  | fuel + 1, pos, s =>
    if pos < s.recs.length then
      let r := s.recs.getD pos dRec
      if r.deleted then da_scan fuel (pos + 1) s
      else if r.minRec then da_scan fuel (pos + 1) s
      else
        let lp := takeLock s
        let lerr := lp.1
        let s := lp.2
        if lerr = .DB_LOCK_WAIT then .wait s
        else if lerr ≠ .DB_SUCCESS ∧ lerr ≠ .DB_SUCCESS_LOCKED_REC then
          .done lerr s
        else
          let mp := takeMark s
          let merr := mp.1
          let s := mp.2
          if merr ≠ .DB_SUCCESS then .done merr s
          else da_scan fuel (pos + 1)
            { s with recs := s.recs.set pos { r with deleted := true } }
    else .done .DB_SUCCESS s

/-- QueryExecutor::delete_all (row0query.cc lines 147-206), with the
backward `goto retry` modelled by fuel. -/
def delete_all : Nat → QState → Option (dberr × QState)
  | 0, _ => none
  | rfuel + 1, s =>
    let s := mtrStart s
    let op := takeOpen s
    let oerr := op.1
    let s := op.2
    if oerr ≠ .DB_SUCCESS then
      some (oerr, recordErrIf oerr (mtrCommit s))
    else
      match da_scan s.recs.length 0 s with
      | .done err s2 => some (err, recordErrIf err (mtrCommit s2))
      | .wait s2 =>
        let s2 := mtrCommit s2
        let wp := handle_wait .DB_LOCK_WAIT false s2
        let werr := wp.1
        let s3 := wp.2
        if werr ≠ .DB_SUCCESS then some (werr, recordErr werr s3)
        else delete_all rfuel s3

end QueryExecutor

/-- The empty world: no records, no transaction, all oracle queues
exhausted (answering DB_SUCCESS), all traces clear. -/
def QS0 : QState :=
  { recs := [], secRecs := [], trx := none,
    thrLock := .QUE_THR_LOCK_NOLOCK,
    openErrs := [], lockResults := [], markResults := [], waitResults := [],
    insertResults := [], inPlaceResults := [], optResults := [],
    pessResults := [], externResults := [],
    cursorPos := 0, mtrStarts := 0, mtrCommits := 0, mtrOpen := false,
    versCalls := 0, lockCalls := 0, processedLog := [], visited := [],
    cbStopped := false, firstErr := none }

/-- A live record with the given key. -/
def mkRec (k : Nat) : Rec := { dRec with key := k }

/-- A delete-marked record with the given key. -/
def mkDelRec (k : Nat) : Rec := { dRec with key := k, deleted := true }

/-- An exact-match comparator: PROCESS on key equality, STOP past it, and
PROCESS everywhere on a full scan; the processing callback always asks to
continue. -/
def cbEq : RecordCallback :=
  { compare := fun t k =>
      match t with
      | some t0 => if t0 = k then .PROCESS else .STOP
      | none => .PROCESS,
    process := fun _ _ => true }

/-- The translated code and the spec's wording of MVCC resolution agree
on every input (shared helper; claim C1's theorem restates it). -/
lemma mvcc_eq_spec (trx : Option Trx) (r : Rec) (cb : RecordCallback)
    (cont0 : Bool) :
    QueryExecutor.process_record_with_mvcc trx r cb cont0 =
      mvcc_spec trx r cb cont0 := by
  cases trx with
  | none => rfl
  | some t =>
    by_cases hv : t.viewOpen
    · by_cases hz : r.trx_id = 0
      · simp [QueryExecutor.process_record_with_mvcc, mvcc_spec, hv, hz,
          specVisibleUnderView, mvccSpecProcess]
      · cases hvis : t.visible r.trx_id
        · by_cases he : r.versErr = .DB_SUCCESS
          · cases hr : r.versRec with
            | none =>
              simp [QueryExecutor.process_record_with_mvcc, mvcc_spec, hv,
                hz, hvis, he, hr, specVisibleUnderView, mvccSpecProcess]
            | some v =>
              simp [QueryExecutor.process_record_with_mvcc, mvcc_spec, hv,
                hz, hvis, he, hr, specVisibleUnderView, mvccSpecProcess]
          · simp [QueryExecutor.process_record_with_mvcc, mvcc_spec, hv,
              hz, hvis, he, specVisibleUnderView, mvccSpecProcess]
        · simp [QueryExecutor.process_record_with_mvcc, mvcc_spec, hv, hz,
            hvis, specVisibleUnderView, mvccSpecProcess]
    · simp [QueryExecutor.process_record_with_mvcc, mvcc_spec, hv,
        specVisibleUnderView, mvccSpecProcess]

/-- Under an open view, an invisible nonzero creator and a hard error
from the version builder, MVCC resolution surfaces exactly that error
with the continue flag cleared (shared helper). -/
lemma mvcc_vers_error (trx : Option Trx) (r : Rec) (cb : RecordCallback)
    (h1 : viewIsOpen trx = true) (h2 : r.trx_id ≠ 0)
    (h3 : trxVisible trx r.trx_id = false)
    (h4 : r.versErr ≠ .DB_SUCCESS) :
    QueryExecutor.process_record_with_mvcc trx r cb true =
      { error := r.versErr, continue_processing := false,
        processed := none, versCalled := true } := by
  cases trx with
  | none => simp [viewIsOpen] at h1
  | some t =>
    simp only [viewIsOpen] at h1
    simp only [trxVisible] at h3
    simp [QueryExecutor.process_record_with_mvcc, h1, h2, h3, h4]

/-- A record kept empty of version data whose builder call hard-fails. -/
def rVersErr : Rec :=
  { dRec with key := 7, trx_id := 9, versErr := .DB_CORRUPTION }

/-- A transaction with an open read view that can see nothing. -/
def tNoneVisible : Trx :=
  { viewOpen := true, visible := fun _ => false,
    error_state := .DB_SUCCESS, wait_thr := false, started := true }

/-- World for exercising the version-builder error path of a read scan. -/
def sVersErr : QState :=
  { QS0 with recs := [rVersErr], trx := some tNoneVisible }

/-- C1: MVCC resolution (process_record_with_mvcc), for every record
reached with a PROCESS comparator verdict during read or read_by_index:
with no open read view the record is handed to the processing callback
iff it is not delete-marked; with an open read view, a record whose
creator transaction id is visible (or zero) is processed iff it is not
delete-marked; an invisible record has its prior version built from the
undo chain, a found version being processed iff it is not delete-marked
with offsets re-derived on the version, no version found meaning no
processing with scanning continuing, and a version-builder hard error
clearing the continue-scanning flag and being returned as the scan's
error. -/
theorem mvcc_resolution_matches_spec :
    (∀ (trx : Option Trx) (r : Rec) (cb : RecordCallback) (cont0 : Bool),
      QueryExecutor.process_record_with_mvcc trx r cb cont0 =
        mvcc_spec trx r cb cont0) ∧
    (∀ (tuple : Option Nat) (cb : RecordCallback) (fuel pos m : Nat)
        (s : QState),
      pos < s.recs.length →
      cb.compare tuple (s.recs.getD pos dRec).key = .PROCESS →
      viewIsOpen s.trx = true →
      (s.recs.getD pos dRec).trx_id ≠ 0 →
      trxVisible s.trx (s.recs.getD pos dRec).trx_id = false →
      (s.recs.getD pos dRec).versErr ≠ .DB_SUCCESS →
      ∃ s2, QueryExecutor.read_scan tuple cb (fuel + 1) pos m s =
        .early (s.recs.getD pos dRec).versErr m s2) := by
  constructor
  · exact mvcc_eq_spec
  · intro tuple cb fuel pos m s hpos hcmp hview hid hvis herr
    refine ⟨recordErrIf (s.recs.getD pos dRec).versErr
      (mvccFold { error := (s.recs.getD pos dRec).versErr,
                  continue_processing := false,
                  processed := none, versCalled := true } s), ?_⟩
    simp only [QueryExecutor.read_scan, hpos, if_pos, hcmp,
      mvcc_vers_error s.trx (s.recs.getD pos dRec) cb hview hid hvis herr]
    simp [herr]

/-- Witness for C1: the equation evaluated at a delete-marked record with
no transaction, and the version-builder error path of a one-record scan. -/
theorem mvcc_resolution_matches_spec_witness :
    QueryExecutor.process_record_with_mvcc none (mkDelRec 5) cbEq true =
      mvcc_spec none (mkDelRec 5) cbEq true ∧
    ∃ s2, QueryExecutor.read_scan (some 7) cbEq 1 0 0 sVersErr =
      .early (sVersErr.recs.getD 0 dRec).versErr 0 s2 := by
  exact ⟨mvcc_resolution_matches_spec.1 none (mkDelRec 5) cbEq true,
    mvcc_resolution_matches_spec.2 (some 7) cbEq 0 0 0 sVersErr
      (by decide) (by decide) (by decide) (by decide) (by decide)
      (by decide)⟩

/-- C4: handle_wait(pending-error, is-table-lock) records the pending
error in the transaction's error_state and classifies the thread's lock
wait as table or row per the flag; with an outstanding wait request it
blocks on the lock manager (consuming its verdict), returning DB_SUCCESS
when granted (resetting the thread's lock state),
DB_LOCK_WAIT_TIMEOUT when the wait timed out, and the original pending
error when no wait was pending. -/
theorem handle_wait_behavior (err : dberr) (tl : Bool) (s : QState)
    (t : Trx) (ht : s.trx = some t) :
    ((QueryExecutor.handle_wait err tl s).2.trx.map Trx.error_state =
      some err) ∧
    (t.wait_thr = false →
      (QueryExecutor.handle_wait err tl s).1 = err ∧
      (QueryExecutor.handle_wait err tl s).2.thrLock =
        (if tl then .QUE_THR_LOCK_TABLE else .QUE_THR_LOCK_ROW) ∧
      (QueryExecutor.handle_wait err tl s).2.waitResults = s.waitResults) ∧
    (t.wait_thr = true →
      ((QueryExecutor.handle_wait err tl s).2.waitResults =
        s.waitResults.tail) ∧
      (s.waitResults.headD .DB_SUCCESS = .DB_SUCCESS →
        (QueryExecutor.handle_wait err tl s).1 = .DB_SUCCESS ∧
        (QueryExecutor.handle_wait err tl s).2.thrLock =
          .QUE_THR_LOCK_NOLOCK) ∧
      (s.waitResults.headD .DB_SUCCESS = .DB_LOCK_WAIT_TIMEOUT →
        (QueryExecutor.handle_wait err tl s).1 = .DB_LOCK_WAIT_TIMEOUT ∧
        (QueryExecutor.handle_wait err tl s).2.thrLock =
          (if tl then .QUE_THR_LOCK_TABLE else .QUE_THR_LOCK_ROW))) := by
  cases hw : t.wait_thr with
  | false =>
    simp [QueryExecutor.handle_wait, ht, hw, takeWait, takeOracle]
  | true =>
    by_cases hd1 : s.waitResults.head?.getD dberr.DB_SUCCESS = .DB_SUCCESS
    · simp [QueryExecutor.handle_wait, ht, hw, hd1, takeWait, takeOracle]
    · by_cases hd2 :
          s.waitResults.head?.getD dberr.DB_SUCCESS = .DB_LOCK_WAIT_TIMEOUT
      · simp [QueryExecutor.handle_wait, ht, hw, hd1, hd2, takeWait,
          takeOracle]
      · simp [QueryExecutor.handle_wait, ht, hw, hd1, hd2, takeWait,
          takeOracle]

/-- A transaction with a pending lock-wait request. -/
def tWaiting : Trx :=
  { viewOpen := false, visible := fun _ => true,
    error_state := .DB_SUCCESS, wait_thr := true, started := true }

/-- World in which the lock manager grants the pending wait. -/
def sWaitGrant : QState :=
  { QS0 with trx := some tWaiting, waitResults := [.DB_SUCCESS] }

/-- Witness for C4: a granted wait yields DB_SUCCESS and resets the
thread's lock state. -/
theorem handle_wait_behavior_witness :
    (QueryExecutor.handle_wait .DB_LOCK_WAIT false sWaitGrant).2.trx.map
      Trx.error_state = some .DB_LOCK_WAIT ∧
    (QueryExecutor.handle_wait .DB_LOCK_WAIT false sWaitGrant).1 =
      .DB_SUCCESS ∧
    (QueryExecutor.handle_wait .DB_LOCK_WAIT false sWaitGrant).2.thrLock =
      .QUE_THR_LOCK_NOLOCK := by
  have h := handle_wait_behavior .DB_LOCK_WAIT false sWaitGrant tWaiting rfl
  exact ⟨h.1, (h.2.2 rfl).2.1 rfl⟩

/-- Two states agree on the mini-transaction counters and the first-error
trace (shared helper for the scan loops, which touch neither). -/
def mtrSame (a b : QState) : Prop :=
  b.mtrStarts = a.mtrStarts ∧ b.mtrCommits = a.mtrCommits ∧
  b.firstErr = a.firstErr

/-- delete_record's scan loop performs no mini-transaction start or
commit and records no exit error. -/
lemma dr_scan_mtr (tuple fuel : Nat) : ∀ (pos cnt : Nat) (s : QState),
    mtrSame s (QueryExecutor.dr_scan tuple fuel pos cnt s).state := by
  induction fuel with
  | zero => intro pos cnt s; exact ⟨rfl, rfl, rfl⟩
  | succ n ih =>
    intro pos cnt s
    simp only [QueryExecutor.dr_scan]
    by_cases h1 : pos < s.recs.length
    · simp only [if_pos h1]
      by_cases h2 : (s.recs.getD pos dRec).deleted
      · simp only [if_pos h2]
        exact ih (pos + 1) cnt (logVisit pos s)
      · simp only [if_neg h2]
        by_cases h3 : tuple ≠ (s.recs.getD pos dRec).key
        · simp only [if_pos h3]; exact ⟨rfl, rfl, rfl⟩
        · simp only [if_neg h3]
          by_cases h4 : (takeLock (logVisit pos s)).1 = .DB_LOCK_WAIT
          · simp only [if_pos h4]; exact ⟨rfl, rfl, rfl⟩
          · simp only [if_neg h4]
            by_cases h5 : (takeLock (logVisit pos s)).1 ≠ .DB_SUCCESS ∧
                (takeLock (logVisit pos s)).1 ≠ .DB_SUCCESS_LOCKED_REC
            · simp only [if_pos h5]; exact ⟨rfl, rfl, rfl⟩
            · simp only [if_neg h5]
              by_cases h6 :
                  (takeMark (takeLock (logVisit pos s)).2).1 ≠ .DB_SUCCESS
              · simp only [if_pos h6]; exact ⟨rfl, rfl, rfl⟩
              · simp only [if_neg h6]
                exact ih (pos + 1) (cnt + 1) _
    · simp only [if_neg h1]; exact ⟨rfl, rfl, rfl⟩

/-- handle_wait performs no mini-transaction start or commit and records
no exit error. -/
lemma handle_wait_mtr (err : dberr) (tl : Bool) (s : QState) :
    mtrSame s (QueryExecutor.handle_wait err tl s).2 := by
  unfold QueryExecutor.handle_wait
  by_cases hw : ((s.trx.map (fun t =>
      ({ t with error_state := err } : Trx))).map Trx.wait_thr).getD false
  all_goals simp only [takeWait, takeOracle]
  all_goals split
  all_goals try exact ⟨rfl, rfl, rfl⟩
  all_goals split
  all_goals exact ⟨rfl, rfl, rfl⟩

/-- Classification of delete_record's `func_exit`: an error is recorded
and returned as is; otherwise the count of delete-marked rows decides
between DB_SUCCESS and DB_RECORD_NOT_FOUND (shared helper). -/
lemma delFuncExit_spec (e : dberr) (cnt : Nat) (s : QState)
    (hfe : s.firstErr = none) :
    ((QueryExecutor.delFuncExit e cnt s).2.2.firstErr = none →
      ((QueryExecutor.delFuncExit e cnt s).1 = .DB_SUCCESS ↔
        0 < (QueryExecutor.delFuncExit e cnt s).2.1) ∧
      ((QueryExecutor.delFuncExit e cnt s).1 = .DB_RECORD_NOT_FOUND ↔
        (QueryExecutor.delFuncExit e cnt s).2.1 = 0)) ∧
    (∀ e2, (QueryExecutor.delFuncExit e cnt s).2.2.firstErr = some e2 →
      (QueryExecutor.delFuncExit e cnt s).1 = e2) := by
  unfold QueryExecutor.delFuncExit
  by_cases he : e ≠ .DB_SUCCESS
  · simp [he, recordErr, mtrCommit, hfe]
  · by_cases hc : 0 < cnt
    · simp [he, hc, mtrCommit, hfe]
      omega
    · simp [he, hc, mtrCommit, hfe]
      omega

/-- delete_record's final status is fully determined by the recorded
first error-path exit and the accumulated delete-marked row count
(shared helper behind claim C2). -/
lemma delete_record_go_spec (tuple : Nat) (rfuel : Nat) :
    ∀ (cnt : Nat) (s : QState) (err : dberr) (cnt2 : Nat) (s2 : QState),
    s.firstErr = none →
    QueryExecutor.delete_record_go tuple rfuel cnt s = some (err, cnt2, s2) →
    ((s2.firstErr = none →
        (err = .DB_SUCCESS ↔ 0 < cnt2) ∧
        (err = .DB_RECORD_NOT_FOUND ↔ cnt2 = 0)) ∧
      (∀ e, s2.firstErr = some e → err = e)) := by
  induction rfuel with
  | zero =>
    intro cnt s err cnt2 s2 _ h
    simp [QueryExecutor.delete_record_go] at h
  | succ n ih =>
    intro cnt s err cnt2 s2 hfe h
    simp only [QueryExecutor.delete_record_go] at h
    by_cases ho : (takeOpen (mtrStart s)).1 ≠ .DB_SUCCESS
    · rw [if_pos ho] at h
      have hX := Option.some.inj h
      have hspec := delFuncExit_spec (takeOpen (mtrStart s)).1 cnt
        (takeOpen (mtrStart s)).2 hfe
      rw [hX] at hspec
      simpa using hspec
    · rw [if_neg ho] at h
      cases hscan : QueryExecutor.dr_scan tuple
          ((takeOpen (mtrStart s)).2).recs.length
          (lowerBound ((takeOpen (mtrStart s)).2).recs tuple) cnt
          ((takeOpen (mtrStart s)).2) with
      | done derr cntB sB =>
        rw [hscan] at h
        have hmtr := dr_scan_mtr tuple ((takeOpen (mtrStart s)).2).recs.length
          (lowerBound ((takeOpen (mtrStart s)).2).recs tuple) cnt
          ((takeOpen (mtrStart s)).2)
        rw [hscan] at hmtr
        have hfeB : sB.firstErr = none := hmtr.2.2.trans hfe
        have hX := Option.some.inj h
        have hspec := delFuncExit_spec derr cntB sB hfeB
        rw [hX] at hspec
        simpa using hspec
      | wait cntB sB =>
        rw [hscan] at h
        have hmtr := dr_scan_mtr tuple ((takeOpen (mtrStart s)).2).recs.length
          (lowerBound ((takeOpen (mtrStart s)).2).recs tuple) cnt
          ((takeOpen (mtrStart s)).2)
        rw [hscan] at hmtr
        have hfeB : sB.firstErr = none := hmtr.2.2.trans hfe
        have hW := handle_wait_mtr .DB_LOCK_WAIT false (mtrCommit sB)
        have hfeW : (QueryExecutor.handle_wait .DB_LOCK_WAIT false
            (mtrCommit sB)).2.firstErr = none := hW.2.2.trans hfeB
        simp only [] at h
        by_cases hw : (QueryExecutor.handle_wait .DB_LOCK_WAIT false
            (mtrCommit sB)).1 ≠ .DB_SUCCESS
        · rw [if_pos hw] at h
          have hX := Option.some.inj h
          rw [Prod.mk.injEq, Prod.mk.injEq] at hX
          obtain ⟨he, hc, hs⟩ := hX
          subst he; subst hs
          constructor
          · intro hnone
            simp [recordErr, hfeW] at hnone
          · intro e h2
            simp [recordErr, hfeW] at h2
            exact h2
        · rw [if_neg hw] at h
          exact ih cntB _ err cnt2 s2 hfeW h

/-- C2: delete_record(table, tuple) returns DB_SUCCESS iff at least one
row was delete-marked during the call (the returned count accumulates
rows marked before a lock-wait retry), DB_RECORD_NOT_FOUND when the scan
terminated by comparison mismatch or cursor exhaustion with zero rows
marked (no error-path exit recorded), and otherwise the first hard error
encountered — cursor-open, lock, or delete-mark failure — as recorded in
the first-error trace. -/
theorem delete_record_status (tuple rfuel : Nat) (s : QState)
    (err : dberr) (cnt2 : Nat) (s2 : QState)
    (hfe : s.firstErr = none)
    (h : QueryExecutor.delete_record tuple rfuel s = some (err, cnt2, s2)) :
    (s2.firstErr = none →
      (err = .DB_SUCCESS ↔ 0 < cnt2) ∧
      (err = .DB_RECORD_NOT_FOUND ↔ cnt2 = 0)) ∧
    (∀ e, s2.firstErr = some e → err = e) :=
  delete_record_go_spec tuple rfuel 0 s err cnt2 s2 hfe h

/-- World with two matching rows where the second lock attempt must wait
and the lock manager then grants the wait: the delete retries from
scratch and the count accumulates across the retry. -/
def sRetry : QState :=
  { QS0 with
    recs := [mkRec 2, mkRec 2],
    trx := some tWaiting,
    lockResults := [.DB_SUCCESS, .DB_LOCK_WAIT, .DB_SUCCESS],
    waitResults := [.DB_SUCCESS] }

/-- Witness for C2: after one lock-wait retry both rows are marked and
the call reports DB_SUCCESS with count 2. -/
theorem delete_record_status_witness :
    (QueryExecutor.delete_record 2 3 sRetry).map (fun o => (o.1, o.2.1)) =
      some (.DB_SUCCESS, 2) := by
  cases hEq : QueryExecutor.delete_record 2 3 sRetry with
  | none =>
    have hs : (QueryExecutor.delete_record 2 3 sRetry).isSome = true := by
      decide
    rw [hEq] at hs; simp at hs
  | some out =>
    obtain ⟨err, cnt, s2⟩ := out
    have h := delete_record_status 2 3 sRetry err cnt s2 rfl hEq
    have hfe : (QueryExecutor.delete_record 2 3 sRetry).map
        (fun o => o.2.2.firstErr) = some none := by decide
    rw [hEq] at hfe; simp at hfe
    have hcnt : (QueryExecutor.delete_record 2 3 sRetry).map
        (fun o => o.2.1) = some 2 := by decide
    rw [hEq] at hcnt; simp at hcnt
    have herr := (h.1 hfe).1.mpr (by omega)
    simp [herr, hcnt]

/-- Index holding exactly the keys [1, 2, 2, 3]. -/
def sExact : QState :=
  { QS0 with recs := [mkRec 1, mkRec 2, mkRec 2, mkRec 3] }

/-- Index holding the keys [1, 2, 2, 3, 4]. -/
def sExactFive : QState :=
  { QS0 with recs := [mkRec 1, mkRec 2, mkRec 2, mkRec 3, mkRec 4] }

/-- C6: an exact-match deletion scan over keys [1, 2, 2, 3] searching
key 2 delete-marks exactly the two key-2 records, acquires exactly two
row locks, visits positions 1, 2, 3 and stops at the first mismatching
record (position 3) without locking it; with a further key-4 record
present, position 4 is never examined or locked. -/
theorem delete_record_stops_at_first_mismatch :
    (QueryExecutor.delete_record 2 1 sExact).map (fun o => (o.1, o.2.1)) =
      some (.DB_SUCCESS, 2) ∧
    (QueryExecutor.delete_record 2 1 sExact).map
      (fun o => o.2.2.recs.map Rec.deleted) =
      some [false, true, true, false] ∧
    (QueryExecutor.delete_record 2 1 sExact).map
      (fun o => o.2.2.lockCalls) = some 2 ∧
    (QueryExecutor.delete_record 2 1 sExact).map
      (fun o => o.2.2.visited) = some [1, 2, 3] ∧
    (QueryExecutor.delete_record 2 1 sExactFive).map
      (fun o => (o.1, o.2.1, o.2.2.recs.map Rec.deleted,
        o.2.2.lockCalls, o.2.2.visited)) =
      some (.DB_SUCCESS, 2, [false, true, true, false, false], 2,
        [1, 2, 3]) := by
  decide

/-- When every record matching the tuple is already delete-marked, the
scan loop of delete_record skips them, stops at the first mismatch, and
finishes without locking or marking anything (shared helper). -/
lemma dr_scan_all_deleted (tuple fuel : Nat) : ∀ (pos cnt : Nat) (s : QState),
    (∀ r ∈ s.recs, r.key = tuple → r.deleted = true) →
    ∃ s2, QueryExecutor.dr_scan tuple fuel pos cnt s =
        .done .DB_SUCCESS cnt s2 ∧
      s2.recs = s.recs ∧ s2.lockCalls = s.lockCalls ∧
      s2.mtrStarts = s.mtrStarts ∧ s2.mtrCommits = s.mtrCommits ∧
      s2.firstErr = s.firstErr := by
  induction fuel with
  | zero => intro pos cnt s _; exact ⟨s, rfl, rfl, rfl, rfl, rfl, rfl⟩
  | succ n ih =>
    intro pos cnt s hall
    simp only [QueryExecutor.dr_scan]
    by_cases h1 : pos < s.recs.length
    · simp only [if_pos h1]
      have hmem : s.recs.getD pos dRec ∈ s.recs := by
        rw [List.getD_eq_getElem s.recs dRec h1]
        exact List.getElem_mem h1
      by_cases h2 : (s.recs.getD pos dRec).deleted
      · simp only [if_pos h2]
        exact ih (pos + 1) cnt (logVisit pos s) hall
      · simp only [if_neg h2]
        have h3 : tuple ≠ (s.recs.getD pos dRec).key := by
          intro hk
          exact h2 (hall _ hmem hk.symm)
        simp only [if_pos h3]
        exact ⟨logVisit pos s, rfl, rfl, rfl, rfl, rfl, rfl⟩
    · simp only [if_neg h1]
      exact ⟨s, rfl, rfl, rfl, rfl, rfl, rfl⟩

/-- C7: delete_record is idempotent on already-deleted rows: when every
row matching the tuple is already delete-marked, the call returns
DB_RECORD_NOT_FOUND, acquires no row lock, and leaves every record —
in particular every delete-mark — unchanged. -/
theorem delete_record_idempotent_on_deleted (tuple rfuel : Nat)
    (s : QState) (hrf : 0 < rfuel) (hopen : s.openErrs = [])
    (hall : ∀ r ∈ s.recs, r.key = tuple → r.deleted = true) :
    (QueryExecutor.delete_record tuple rfuel s).map (fun o => (o.1, o.2.1)) =
      some (.DB_RECORD_NOT_FOUND, 0) ∧
    (QueryExecutor.delete_record tuple rfuel s).map (fun o => o.2.2.recs) =
      some s.recs ∧
    (QueryExecutor.delete_record tuple rfuel s).map
      (fun o => o.2.2.lockCalls) = some s.lockCalls := by
  obtain ⟨n, rfl⟩ : ∃ n, rfuel = n + 1 := ⟨rfuel - 1, by omega⟩
  unfold QueryExecutor.delete_record
  simp only [QueryExecutor.delete_record_go]
  have ho : ¬ ((takeOpen (mtrStart s)).1 ≠ .DB_SUCCESS) := by
    simp [takeOpen, takeOracle, mtrStart, hopen]
  rw [if_neg ho]
  obtain ⟨s2, hscan, hrecs, hlock, _, _, _⟩ :=
    dr_scan_all_deleted tuple ((takeOpen (mtrStart s)).2).recs.length
      (lowerBound ((takeOpen (mtrStart s)).2).recs tuple) 0
      ((takeOpen (mtrStart s)).2) hall
  rw [hscan]
  simp only [QueryExecutor.delFuncExit, mtrCommit, hrecs, hlock]
  refine ⟨by simp, ?_⟩
  exact ⟨rfl, rfl⟩

/-- Index where the only key-2 row is already delete-marked. -/
def sDelIdem : QState :=
  { QS0 with recs := [mkRec 1, mkDelRec 2, mkRec 3] }

/-- Witness for C7 at a three-record index whose only matching row is
already delete-marked. -/
theorem delete_record_idempotent_on_deleted_witness :
    (QueryExecutor.delete_record 2 1 sDelIdem).map (fun o => (o.1, o.2.1)) =
      some (.DB_RECORD_NOT_FOUND, 0) ∧
    (QueryExecutor.delete_record 2 1 sDelIdem).map (fun o => o.2.2.recs) =
      some sDelIdem.recs ∧
    (QueryExecutor.delete_record 2 1 sDelIdem).map
      (fun o => o.2.2.lockCalls) = some sDelIdem.lockCalls :=
  delete_record_idempotent_on_deleted 2 1 sDelIdem (by decide) rfl
    (by decide)

@[simp] lemma recordErr_versCalls (e : dberr) (s : QState) :
    (recordErr e s).versCalls = s.versCalls := by
  unfold recordErr; split <;> rfl

@[simp] lemma recordErr_lockCalls (e : dberr) (s : QState) :
    (recordErr e s).lockCalls = s.lockCalls := by
  unfold recordErr; split <;> rfl

@[simp] lemma recordErr_mtrOpen (e : dberr) (s : QState) :
    (recordErr e s).mtrOpen = s.mtrOpen := by
  unfold recordErr; split <;> rfl

@[simp] lemma recordErr_mtrStarts (e : dberr) (s : QState) :
    (recordErr e s).mtrStarts = s.mtrStarts := by
  unfold recordErr; split <;> rfl

@[simp] lemma recordErr_mtrCommits (e : dberr) (s : QState) :
    (recordErr e s).mtrCommits = s.mtrCommits := by
  unfold recordErr; split <;> rfl

@[simp] lemma recordErr_processedLog (e : dberr) (s : QState) :
    (recordErr e s).processedLog = s.processedLog := by
  unfold recordErr; split <;> rfl

@[simp] lemma recordErr_recs (e : dberr) (s : QState) :
    (recordErr e s).recs = s.recs := by
  unfold recordErr; split <;> rfl

@[simp] lemma recordErrIf_versCalls (e : dberr) (s : QState) :
    (recordErrIf e s).versCalls = s.versCalls := by
  unfold recordErrIf; split <;> simp

@[simp] lemma recordErrIf_mtrOpen (e : dberr) (s : QState) :
    (recordErrIf e s).mtrOpen = s.mtrOpen := by
  unfold recordErrIf; split <;> simp

@[simp] lemma recordErrIf_mtrStarts (e : dberr) (s : QState) :
    (recordErrIf e s).mtrStarts = s.mtrStarts := by
  unfold recordErrIf; split <;> simp

@[simp] lemma recordErrIf_mtrCommits (e : dberr) (s : QState) :
    (recordErrIf e s).mtrCommits = s.mtrCommits := by
  unfold recordErrIf; split <;> simp

@[simp] lemma handle_wait_versCalls (e : dberr) (tl : Bool) (s : QState) :
    (QueryExecutor.handle_wait e tl s).2.versCalls = s.versCalls := by
  unfold QueryExecutor.handle_wait
  simp only [takeWait, takeOracle]
  repeat' split
  all_goals rfl

@[simp] lemma handle_wait_lockCalls (e : dberr) (tl : Bool) (s : QState) :
    (QueryExecutor.handle_wait e tl s).2.lockCalls = s.lockCalls := by
  unfold QueryExecutor.handle_wait
  simp only [takeWait, takeOracle]
  repeat' split
  all_goals rfl

@[simp] lemma handle_wait_mtrOpen (e : dberr) (tl : Bool) (s : QState) :
    (QueryExecutor.handle_wait e tl s).2.mtrOpen = s.mtrOpen := by
  unfold QueryExecutor.handle_wait
  simp only [takeWait, takeOracle]
  repeat' split
  all_goals rfl

@[simp] lemma handle_wait_mtrStarts (e : dberr) (tl : Bool) (s : QState) :
    (QueryExecutor.handle_wait e tl s).2.mtrStarts = s.mtrStarts := by
  unfold QueryExecutor.handle_wait
  simp only [takeWait, takeOracle]
  repeat' split
  all_goals rfl

@[simp] lemma handle_wait_mtrCommits (e : dberr) (tl : Bool) (s : QState) :
    (QueryExecutor.handle_wait e tl s).2.mtrCommits = s.mtrCommits := by
  unfold QueryExecutor.handle_wait
  simp only [takeWait, takeOracle]
  repeat' split
  all_goals rfl

/-- select_for_update never invokes the undo-chain version builder. -/
lemma sfu_versCalls (tuple : Nat) (cb : Option RecordCallback) (s : QState) :
    (QueryExecutor.select_for_update tuple cb s).2.versCalls = s.versCalls := by
  simp only [QueryExecutor.select_for_update]
  repeat' split
  all_goals simp [mtrCommit, logProcessed, takeLock, takeOpen, takeOracle,
    openTrxViewState, mtrStart]

/-- A record created by transaction 9, with no prior version recorded. -/
def rInvisible : Rec := { dRec with key := 7, trx_id := 9 }

/-- World where the only record is invisible under the open read view. -/
def sInvis : QState :=
  { QS0 with recs := [rInvisible], trx := some tNoneVisible }

/-- A record whose version chain holds a live prior version. -/
def rVersioned : Rec :=
  { dRec with
    key := 7, trx_id := 9,
    versRec := some { key := 7, deleted := false, fieldSizes := [3] } }

/-- World where a read must reconstruct the prior version. -/
def sVersBuild : QState :=
  { QS0 with recs := [rVersioned], trx := some tNoneVisible }

/-- C3: select_for_update, when the found record's creator transaction id
is nonzero and not visible under the transaction's open read view,
returns DB_RECORD_NOT_FOUND with its mini-transaction committed, having
acquired no row lock there; select_for_update never invokes the
undo-chain version builder on any input — unlike read(), which does
reconstruct prior versions (final conjunct exhibits such a read). -/
theorem select_for_update_invisible_no_version_build
    (tuple : Nat) (s : QState) (cb : Option RecordCallback) (t : Trx)
    (ht : s.trx = some t) (hopen : s.openErrs = [])
    (hpos : lowerBound s.recs tuple < s.recs.length)
    (hid : (s.recs.getD (lowerBound s.recs tuple) dRec).trx_id ≠ 0)
    (hvis : t.visible (s.recs.getD (lowerBound s.recs tuple) dRec).trx_id
      = false) :
    (QueryExecutor.select_for_update tuple cb s).1 = .DB_RECORD_NOT_FOUND ∧
    (QueryExecutor.select_for_update tuple cb s).2.mtrOpen = false ∧
    (QueryExecutor.select_for_update tuple cb s).2.mtrCommits =
      s.mtrCommits + 1 ∧
    (QueryExecutor.select_for_update tuple cb s).2.lockCalls = s.lockCalls ∧
    (∀ (tuple2 : Nat) (cb2 : Option RecordCallback) (s3 : QState),
      (QueryExecutor.select_for_update tuple2 cb2 s3).2.versCalls =
        s3.versCalls) ∧
    (QueryExecutor.read (some 7) cbEq sVersBuild).2.2.versCalls = 1 := by
  have hid2 : ¬ s.recs[lowerBound s.recs tuple].trx_id = 0 := by
    rw [← List.getD_eq_getElem s.recs dRec hpos]; exact hid
  have hvis2 : t.visible s.recs[lowerBound s.recs tuple].trx_id = false := by
    rw [← List.getD_eq_getElem s.recs dRec hpos]; exact hvis
  refine ⟨?_, ?_, ?_, ?_, fun a b c => sfu_versCalls a b c, by decide⟩
  all_goals by_cases htv : t.viewOpen
  all_goals
    simp [QueryExecutor.select_for_update, takeOpen, takeOracle,
      openTrxViewState, mtrStart, takeLock, mtrCommit, visFails, hopen,
      hpos, ht, htv, hid2, hvis2]

/-- C10: when select_for_update finds, key-matches, and successfully
locks a visible record and the comparator returns STOP, it returns
DB_SUCCESS without invoking the processing callback, with the
mini-transaction left open exactly as in the PROCESS case — same status,
same mini-transaction state — while only SKIP yields
DB_RECORD_NOT_FOUND. -/
theorem select_for_update_stop_verdict (tuple : Nat) (s : QState)
    (cbS cbP cbK : RecordCallback) (t : Trx)
    (ht : s.trx = some t) (hopen : s.openErrs = [])
    (hlock : s.lockResults = [])
    (hpos : lowerBound s.recs tuple < s.recs.length)
    (hvisOK : (s.recs.getD (lowerBound s.recs tuple) dRec).trx_id = 0 ∨
      t.visible (s.recs.getD (lowerBound s.recs tuple) dRec).trx_id = true)
    (hkey : (s.recs.getD (lowerBound s.recs tuple) dRec).key = tuple)
    (hS : cbS.compare (some tuple)
      (s.recs.getD (lowerBound s.recs tuple) dRec).key = .STOP)
    (hP : cbP.compare (some tuple)
      (s.recs.getD (lowerBound s.recs tuple) dRec).key = .PROCESS)
    (hK : cbK.compare (some tuple)
      (s.recs.getD (lowerBound s.recs tuple) dRec).key = .SKIP) :
    (QueryExecutor.select_for_update tuple (some cbS) s).1 = .DB_SUCCESS ∧
    (QueryExecutor.select_for_update tuple (some cbS) s).2.processedLog =
      s.processedLog ∧
    (QueryExecutor.select_for_update tuple (some cbS) s).2.mtrOpen = true ∧
    (QueryExecutor.select_for_update tuple (some cbP) s).1 = .DB_SUCCESS ∧
    (QueryExecutor.select_for_update tuple (some cbP) s).2.mtrOpen = true ∧
    (QueryExecutor.select_for_update tuple (some cbS) s).2.mtrStarts =
      (QueryExecutor.select_for_update tuple (some cbP) s).2.mtrStarts ∧
    (QueryExecutor.select_for_update tuple (some cbS) s).2.mtrCommits =
      (QueryExecutor.select_for_update tuple (some cbP) s).2.mtrCommits ∧
    (QueryExecutor.select_for_update tuple (some cbK) s).1 =
      .DB_RECORD_NOT_FOUND := by
  have hg := List.getD_eq_getElem s.recs dRec hpos
  rw [hg] at hkey hS hP hK hvisOK
  rw [hkey] at hS hP hK
  rcases hvisOK with hz | hv
  · by_cases htv : t.viewOpen <;>
      simp [QueryExecutor.select_for_update, takeOpen, takeOracle,
        openTrxViewState, mtrStart, takeLock, mtrCommit, logProcessed,
        visFails, hopen, hlock, hpos, ht, htv, hz, hkey, hS, hP, hK]
  · by_cases htv : t.viewOpen <;>
      simp [QueryExecutor.select_for_update, takeOpen, takeOracle,
        openTrxViewState, mtrStart, takeLock, mtrCommit, logProcessed,
        visFails, hopen, hlock, hpos, ht, htv, hv, hkey, hS, hP, hK]

/-- Witness for C3: a one-record world whose record was created by a
transaction the open view cannot see. -/
theorem select_for_update_invisible_no_version_build_witness :
    (QueryExecutor.select_for_update 7 none sInvis).1 =
      .DB_RECORD_NOT_FOUND ∧
    (QueryExecutor.select_for_update 7 none sInvis).2.mtrOpen = false ∧
    (QueryExecutor.select_for_update 7 none sInvis).2.versCalls =
      sInvis.versCalls := by
  have h := select_for_update_invisible_no_version_build 7 sInvis none
    tNoneVisible rfl rfl (by decide) (by decide) (by decide)
  exact ⟨h.1, h.2.1, h.2.2.2.2.1 7 none sInvis⟩

/-- A transaction whose open read view sees every creator id. -/
def tAllVisible : Trx :=
  { viewOpen := true, visible := fun _ => true,
    error_state := .DB_SUCCESS, wait_thr := false, started := true }

/-- One visible lockable record under an all-visible view. -/
def sLocked : QState :=
  { QS0 with recs := [mkRec 5], trx := some tAllVisible }

/-- A comparator answering STOP on every record. -/
def cbStopAll : RecordCallback :=
  { compare := fun _ _ => .STOP, process := fun _ _ => true }

/-- A comparator answering PROCESS on every record. -/
def cbProcAll : RecordCallback :=
  { compare := fun _ _ => .PROCESS, process := fun _ _ => true }

/-- A comparator answering SKIP on every record. -/
def cbSkipAll : RecordCallback :=
  { compare := fun _ _ => .SKIP, process := fun _ _ => true }

/-- Witness for C10 at a one-record world with STOP, PROCESS and SKIP
comparators. -/
theorem select_for_update_stop_verdict_witness :
    (QueryExecutor.select_for_update 5 (some cbStopAll) sLocked).1 =
      .DB_SUCCESS ∧
    (QueryExecutor.select_for_update 5 (some cbStopAll) sLocked).2.mtrOpen =
      true ∧
    (QueryExecutor.select_for_update 5 (some cbSkipAll) sLocked).1 =
      .DB_RECORD_NOT_FOUND := by
  have h := select_for_update_stop_verdict 5 sLocked cbStopAll cbProcAll
    cbSkipAll tAllVisible rfl rfl rfl (by decide) (Or.inl (by decide))
    (by decide) rfl rfl rfl
  exact ⟨h.1, h.2.2.1, h.2.2.2.2.2.2.2⟩

/-- The size-change scan reports a change iff some updated field inside
the record has a non-NULL new length differing from the old one. -/
lemma anyFieldSizeChange_iff (sizes : List Nat) (upd : List UpdField) :
    anyFieldSizeChange sizes upd = true ↔
      ∃ f ∈ upd, f.field_no < sizes.length ∧ f.new_len ≠ UNIV_SQL_NULL ∧
        f.new_len ≠ sizes.getD f.field_no 0 := by
  simp [anyFieldSizeChange, List.any_eq_true, and_assoc]

/-- update_escalate reports the in-place flag it was given. -/
lemma update_escalate_ipc (ipc : Bool) (s : QState) :
    (QueryExecutor.update_escalate ipc s).2.1.inPlaceCalled = ipc := by
  simp only [QueryExecutor.update_escalate]
  repeat' split
  all_goals rfl

/-- C9: update_record selects its strategy by field length change: if no
updated field changes its stored length the in-place update is attempted
(and, unless it reports DB_OVERFLOW, its status is final with no
escalation); if some field's new length differs from the old, in-place is
skipped and the optimistic update runs, escalating to the pessimistic
update exactly when the optimistic attempt reports DB_OVERFLOW or
DB_UNDERFLOW; a pessimistic success with a big-record remainder stores
the overflow fields externally and returns the external-storage status,
otherwise the pessimistic (or optimistic) status is returned. -/
theorem update_record_strategy_selection (upd : List UpdField) (s : QState) :
    ((∀ f ∈ upd, f.field_no < (cursorSizes s).length →
        f.new_len = UNIV_SQL_NULL ∨
        f.new_len = (cursorSizes s).getD f.field_no 0) →
      (QueryExecutor.update_record upd s).2.1.inPlaceCalled = true ∧
      (s.inPlaceResults.headD .DB_SUCCESS ≠ .DB_OVERFLOW →
        (QueryExecutor.update_record upd s).1 =
          s.inPlaceResults.headD .DB_SUCCESS ∧
        (QueryExecutor.update_record upd s).2.1.optCalled = false)) ∧
    ((∃ f ∈ upd, f.field_no < (cursorSizes s).length ∧
        f.new_len ≠ UNIV_SQL_NULL ∧
        f.new_len ≠ (cursorSizes s).getD f.field_no 0) →
      (QueryExecutor.update_record upd s).2.1.inPlaceCalled = false ∧
      (QueryExecutor.update_record upd s).2.1.optCalled = true ∧
      (¬ (s.optResults.headD .DB_SUCCESS = .DB_OVERFLOW ∨
          s.optResults.headD .DB_SUCCESS = .DB_UNDERFLOW) →
        (QueryExecutor.update_record upd s).1 =
          s.optResults.headD .DB_SUCCESS ∧
        (QueryExecutor.update_record upd s).2.1.pessCalled = false) ∧
      ((s.optResults.headD .DB_SUCCESS = .DB_OVERFLOW ∨
        s.optResults.headD .DB_SUCCESS = .DB_UNDERFLOW) →
        (QueryExecutor.update_record upd s).2.1.pessCalled = true ∧
        (s.pessResults.headD (.DB_SUCCESS, false) = (.DB_SUCCESS, true) →
          (QueryExecutor.update_record upd s).2.1.externCalled = true ∧
          (QueryExecutor.update_record upd s).1 =
            s.externResults.headD .DB_SUCCESS) ∧
        ((s.pessResults.headD (.DB_SUCCESS, false)).2 = false →
          (QueryExecutor.update_record upd s).1 =
            (s.pessResults.headD (.DB_SUCCESS, false)).1 ∧
          (QueryExecutor.update_record upd s).2.1.externCalled = false) ∧
        ((s.pessResults.headD (.DB_SUCCESS, false)).1 ≠ .DB_SUCCESS →
          (QueryExecutor.update_record upd s).1 =
            (s.pessResults.headD (.DB_SUCCESS, false)).1 ∧
          (QueryExecutor.update_record upd s).2.1.externCalled = false))) := by
  constructor
  · intro hall
    have hfalse : anyFieldSizeChange (cursorSizes s) upd = false := by
      rw [← Bool.not_eq_true, anyFieldSizeChange_iff]
      rintro ⟨f, hf, h1, h2, h3⟩
      rcases hall f hf h1 with h | h
      exacts [h2 h, h3 h]
    constructor
    · by_cases hip : s.inPlaceResults.headD .DB_SUCCESS = .DB_OVERFLOW
      · simp [QueryExecutor.update_record, hfalse, takeInPlace, takeOracle,
          List.headD_eq_head?_getD] at hip ⊢
        simp [hip, update_escalate_ipc]
      · simp [QueryExecutor.update_record, hfalse, takeInPlace, takeOracle,
          List.headD_eq_head?_getD] at hip ⊢
        simp [hip]
    · intro hip
      simp only [List.headD_eq_head?_getD] at hip
      simp [QueryExecutor.update_record, hfalse, takeInPlace, takeOracle,
        hip, List.headD_eq_head?_getD]
  · intro hex
    have htrue : anyFieldSizeChange (cursorSizes s) upd = true :=
      (anyFieldSizeChange_iff _ _).mpr hex
    have hesc : QueryExecutor.update_record upd s =
        QueryExecutor.update_escalate false s := by
      simp [QueryExecutor.update_record, htrue]
    rw [hesc]
    refine ⟨update_escalate_ipc false s, ?_, ?_, ?_⟩
    · by_cases hopt : (takeOpt s).1 = .DB_OVERFLOW ∨
          (takeOpt s).1 = .DB_UNDERFLOW
      · simp only [QueryExecutor.update_escalate, if_pos hopt]
        repeat' split
        all_goals rfl
      · simp only [QueryExecutor.update_escalate, if_neg hopt]
        try rfl
    · intro hopt
      have hopt2 : ¬ ((takeOpt s).1 = .DB_OVERFLOW ∨
          (takeOpt s).1 = .DB_UNDERFLOW) := by
        simpa [takeOpt, takeOracle, List.headD_eq_head?_getD] using hopt
      simp only [QueryExecutor.update_escalate, if_neg hopt2]
      simp [takeOpt, takeOracle, List.headD_eq_head?_getD]
    · intro hopt
      have hopt2 : (takeOpt s).1 = .DB_OVERFLOW ∨
          (takeOpt s).1 = .DB_UNDERFLOW := by
        simpa [takeOpt, takeOracle, List.headD_eq_head?_getD] using hopt
      simp only [QueryExecutor.update_escalate, if_pos hopt2]
      refine ⟨?_, ?_, ?_, ?_⟩
      · repeat' split
        all_goals rfl
      · intro hp
        have hpa : (s.pessResults.headD (dberr.DB_SUCCESS, false)).1 =
            .DB_SUCCESS := by rw [hp]
        have hpb : (s.pessResults.headD (dberr.DB_SUCCESS, false)).2 =
            true := by rw [hp]
        simp only [List.headD_eq_head?_getD] at hpa hpb
        simp [takePess, takeOpt, takeOracle, takeExtern, hpa, hpb,
          List.headD_eq_head?_getD]
      · intro hp
        have hpb : (s.pessResults.head?.getD (dberr.DB_SUCCESS, false)).2 =
            false := by
          simpa [List.headD_eq_head?_getD] using hp
        simp [takePess, takeOpt, takeOracle, hpb,
          List.headD_eq_head?_getD]
      · intro hp
        have hpa : ¬ (s.pessResults.head?.getD
            (dberr.DB_SUCCESS, false)).1 = .DB_SUCCESS := by
          simpa [List.headD_eq_head?_getD] using hp
        simp [takePess, takeOpt, takeOracle, hpa,
          List.headD_eq_head?_getD]

/-- A one-field record of stored size 4 at the cursor position. -/
def rOld4 : Rec := { dRec with key := 1, fieldSizes := [4] }

/-- World where an optimistic update overflows and the pessimistic
update succeeds leaving a big-record remainder. -/
def sEscalate : QState :=
  { QS0 with
    recs := [rOld4],
    optResults := [.DB_OVERFLOW],
    pessResults := [(.DB_SUCCESS, true)],
    externResults := [.DB_SUCCESS] }

/-- Witness for C9: a grown field escalates optimistic → pessimistic →
external storage and returns the external-storage status. -/
theorem update_record_strategy_selection_witness :
    (QueryExecutor.update_record [⟨0, 10⟩] sEscalate).2.1.inPlaceCalled =
      false ∧
    (QueryExecutor.update_record [⟨0, 10⟩] sEscalate).2.1.optCalled =
      true ∧
    (QueryExecutor.update_record [⟨0, 10⟩] sEscalate).2.1.pessCalled =
      true ∧
    (QueryExecutor.update_record [⟨0, 10⟩] sEscalate).2.1.externCalled =
      true ∧
    (QueryExecutor.update_record [⟨0, 10⟩] sEscalate).1 = .DB_SUCCESS := by
  have h := (update_record_strategy_selection [⟨0, 10⟩] sEscalate).2
    (by decide)
  obtain ⟨hip, hopt, _, hesc⟩ := h
  obtain ⟨hpess, hbig, _, _⟩ := hesc (Or.inl (by decide))
  obtain ⟨hx, hr⟩ := hbig (by decide)
  exact ⟨hip, hopt, hpess, hx, hr.trans (by decide)⟩

/-- Folding MVCC traces into the state never records an exit error. -/
lemma mvccFold_firstErr (m : MvccResult) (s : QState) :
    (mvccFold m s).firstErr = s.firstErr := by
  simp only [mvccFold, logProcessed]
  repeat' split
  all_goals rfl

/-- Folding MVCC traces sets the callback-halt flag exactly when a
processed record's callback returned false. -/
lemma mvccFold_cbStopped (m : MvccResult) (s : QState) :
    (mvccFold m s).cbStopped =
      (s.cbStopped || (m.processed.isSome && !m.continue_processing)) := by
  simp only [mvccFold, logProcessed]
  repeat' split
  all_goals simp_all

/-- If MVCC resolution succeeds yet clears the continue flag, the flag
came from the processing callback, so a record was processed. -/
lemma mvcc_processed_of_halt (trx : Option Trx) (r : Rec)
    (cb : RecordCallback)
    (he : (QueryExecutor.process_record_with_mvcc trx r cb true).error =
      .DB_SUCCESS)
    (hc : (QueryExecutor.process_record_with_mvcc trx r cb true
      ).continue_processing = false) :
    (QueryExecutor.process_record_with_mvcc trx r cb true
      ).processed.isSome = true := by
  cases trx with
  | none =>
    by_cases hd : r.deleted
    · simp [QueryExecutor.process_record_with_mvcc, hd] at hc
    · simp [QueryExecutor.process_record_with_mvcc, hd]
  | some t =>
    by_cases hv : t.viewOpen
    · by_cases hz : r.trx_id ≠ 0 ∧ t.visible r.trx_id = false
      · by_cases hve : r.versErr = .DB_SUCCESS
        · cases hr : r.versRec with
          | none =>
            simp [QueryExecutor.process_record_with_mvcc, hv, hz, hve, hr]
              at hc
          | some v =>
            by_cases hvd : v.deleted
            · simp [QueryExecutor.process_record_with_mvcc, hv, hz, hve,
                hr, hvd] at hc
            · simp [QueryExecutor.process_record_with_mvcc, hv, hz, hve,
                hr, hvd]
        · simp [QueryExecutor.process_record_with_mvcc, hv, hz, hve] at he
      · by_cases hd : r.deleted
        · simp [QueryExecutor.process_record_with_mvcc, hv, hz, hd] at hc
        · simp [QueryExecutor.process_record_with_mvcc, hv, hz, hd]
    · by_cases hd : r.deleted
      · simp [QueryExecutor.process_record_with_mvcc, hv, hd] at hc
      · simp [QueryExecutor.process_record_with_mvcc, hv, hd]

/-- Classification of read's scan loop: an early exit either recorded
the resolution error it returns, or returns DB_SUCCESS because the
processing callback halted the scan; a normal finish records no error
and no callback halt (shared helper behind claim C5). -/
lemma read_scan_class (tuple : Option Nat) (cb : RecordCallback)
    (fuel : Nat) : ∀ (pos m : Nat) (s : QState),
    s.firstErr = none → s.cbStopped = false →
    (∀ err m2 s2,
      QueryExecutor.read_scan tuple cb fuel pos m s = .early err m2 s2 →
      ((∀ e, s2.firstErr = some e → err = e) ∧
       (s2.firstErr = none → err = .DB_SUCCESS ∧ s2.cbStopped = true))) ∧
    (∀ m2 s2,
      QueryExecutor.read_scan tuple cb fuel pos m s = .finished m2 s2 →
      s2.firstErr = none ∧ s2.cbStopped = false) := by
  induction fuel with
  | zero =>
    intro pos m s hfe hcs
    constructor
    · intro err m2 s2 h
      simp [QueryExecutor.read_scan] at h
    · intro m2 s2 h
      simp only [QueryExecutor.read_scan] at h
      cases h
      exact ⟨hfe, hcs⟩
  | succ n ih =>
    intro pos m s hfe hcs
    simp only [QueryExecutor.read_scan]
    by_cases h1 : pos < s.recs.length
    · simp only [if_pos h1]
      cases hcmp : cb.compare tuple (s.recs.getD pos dRec).key with
      | STOP =>
        constructor
        · intro err m2 s2 h; cases h
        · intro m2 s2 h; cases h; exact ⟨hfe, hcs⟩
      | SKIP => exact ih (pos + 1) m s hfe hcs
      | PROCESS =>
        by_cases hstop : (QueryExecutor.process_record_with_mvcc s.trx
              (s.recs.getD pos dRec) cb true).error ≠ .DB_SUCCESS ∨
            (QueryExecutor.process_record_with_mvcc s.trx
              (s.recs.getD pos dRec) cb true).continue_processing = false
        · simp only [if_pos hstop]
          constructor
          · intro err m2 s2 h
            cases h
            by_cases he : (QueryExecutor.process_record_with_mvcc s.trx
                (s.recs.getD pos dRec) cb true).error = .DB_SUCCESS
            · have hc : (QueryExecutor.process_record_with_mvcc s.trx
                  (s.recs.getD pos dRec) cb true).continue_processing =
                  false := by
                rcases hstop with h | h
                · exact absurd he h
                · exact h
              have hsome := mvcc_processed_of_halt s.trx
                (s.recs.getD pos dRec) cb he hc
              constructor
              · intro e hsome2
                rw [recordErrIf, if_neg (not_not_intro he)] at hsome2
                rw [mvccFold_firstErr, hfe] at hsome2
                cases hsome2
              · intro _
                refine ⟨he, ?_⟩
                rw [recordErrIf, if_neg (not_not_intro he)]
                rw [mvccFold_cbStopped, hcs, hsome, hc]
                rfl
            · constructor
              · intro e hsome2
                rw [recordErrIf, if_pos he] at hsome2
                rw [recordErr, if_pos (by rw [mvccFold_firstErr, hfe])]
                  at hsome2
                exact Option.some.inj hsome2
              · intro hnone
                exfalso
                rw [recordErrIf, if_pos he] at hnone
                rw [recordErr, if_pos (by rw [mvccFold_firstErr, hfe])]
                  at hnone
                exact Option.noConfusion hnone
          · intro m2 s2 h; cases h
        · simp only [if_neg hstop]
          push_neg at hstop
          obtain ⟨he, hc⟩ := hstop
          have hc2 : (QueryExecutor.process_record_with_mvcc s.trx
              (s.recs.getD pos dRec) cb true).continue_processing = true :=
            by simpa using hc
          apply ih (pos + 1) (m + 1)
          · rw [mvccFold_firstErr]; exact hfe
          · rw [mvccFold_cbStopped, hcs, hc2]
            simp
    · simp only [if_neg h1]
      constructor
      · intro err m2 s2 h; cases h
      · intro m2 s2 h; cases h; exact ⟨hfe, hcs⟩

/-- C5 amended: read(table, tuple, mode, callback) returns DB_SUCCESS
iff at least one record drew a PROCESS comparator verdict and completed
MVCC resolution without error (counted in the match count even when the
visible version was delete-marked or absent, so the processing callback
was never invoked), or no search tuple was given, or a processing
callback halted the scan after being handed a row; it returns
DB_RECORD_NOT_FOUND iff the search was keyed, no such record was
counted, and no callback halt occurred.  The original claim's reading of
"processed" as "handed to the processing callback" is refuted by
read_keyed_unprocessed_counterexample. -/
theorem read_status_classification (tuple : Option Nat)
    (cb : RecordCallback) (s : QState) (err : dberr) (m : Nat)
    (s2 : QState) (hfe : s.firstErr = none) (hcs : s.cbStopped = false)
    (h : QueryExecutor.read tuple cb s = (err, m, s2)) :
    s2.firstErr = none →
      ((err = .DB_SUCCESS ↔
        (0 < m ∨ tuple = none ∨ s2.cbStopped = true)) ∧
       (err = .DB_RECORD_NOT_FOUND ↔
        (tuple ≠ none ∧ m = 0 ∧ s2.cbStopped = false))) := by
  simp only [QueryExecutor.read] at h
  by_cases ho : (takeOpen (openTrxViewState (mtrStart s))).1 ≠ .DB_SUCCESS
  · rw [if_pos ho] at h
    rw [Prod.mk.injEq, Prod.mk.injEq] at h
    obtain ⟨h1, h2, h3⟩ := h
    subst h1; subst h2; subst h3
    intro hnone
    exfalso
    rw [recordErr, if_pos (show (mtrCommit
        (takeOpen (openTrxViewState (mtrStart s))).2).firstErr = none
      from hfe)] at hnone
    exact Option.noConfusion hnone
  · rw [if_neg ho] at h
    generalize hpos : (match tuple with
      | some t =>
        lowerBound ((takeOpen (openTrxViewState (mtrStart s))).2).recs t
      | none => 0) = pos0 at h
    clear hpos
    cases hscan : QueryExecutor.read_scan tuple cb
        ((takeOpen (openTrxViewState (mtrStart s))).2).recs.length pos0 0
        ((takeOpen (openTrxViewState (mtrStart s))).2) with
    | early err2 m2 sB =>
      rw [hscan] at h
      rw [Prod.mk.injEq, Prod.mk.injEq] at h
      obtain ⟨h1, h2, h3⟩ := h
      subst h1; subst h2; subst h3
      have hcl := (read_scan_class tuple cb
        ((takeOpen (openTrxViewState (mtrStart s))).2).recs.length pos0 0
        ((takeOpen (openTrxViewState (mtrStart s))).2) hfe hcs).1
        err2 m2 sB hscan
      intro hnone
      have hsB : sB.firstErr = none := hnone
      obtain ⟨hok, hcb⟩ := hcl.2 hsB
      subst hok
      have hcb2 : (mtrCommit sB).cbStopped = true := hcb
      constructor
      · exact ⟨fun _ => Or.inr (Or.inr hcb2), fun _ => rfl⟩
      · constructor
        · intro hx; cases hx
        · rintro ⟨_, _, hcsf⟩
          rw [hcb2] at hcsf
          cases hcsf
    | finished m2 sB =>
      rw [hscan] at h
      rw [Prod.mk.injEq, Prod.mk.injEq] at h
      obtain ⟨h1, h2, h3⟩ := h
      subst h1; subst h2; subst h3
      have hcl := (read_scan_class tuple cb
        ((takeOpen (openTrxViewState (mtrStart s))).2).recs.length pos0 0
        ((takeOpen (openTrxViewState (mtrStart s))).2) hfe hcs).2
        m2 sB hscan
      obtain ⟨hfeB, hcsB⟩ := hcl
      intro _
      have hcs2 : (mtrCommit sB).cbStopped = false := hcsB
      by_cases hc : 0 < m2 ∨ tuple = none
      · rw [if_pos hc]
        constructor
        · exact ⟨fun _ => Or.elim hc (fun h0 => Or.inl h0)
            (fun h0 => Or.inr (Or.inl h0)), fun _ => rfl⟩
        · constructor
          · intro hx; cases hx
          · rintro ⟨hne, hm0, _⟩
            rcases hc with h0 | h0
            · omega
            · exact absurd h0 hne
      · rw [if_neg hc]
        push_neg at hc
        obtain ⟨hm0, hne⟩ := hc
        constructor
        · constructor
          · intro hx; cases hx
          · rintro (h0 | h0 | h0)
            · omega
            · exact absurd h0 hne
            · rw [hcs2] at h0; cases h0
        · exact ⟨fun _ => ⟨hne, by omega, hcs2⟩, fun _ => rfl⟩

/-- A keyed world whose only matching record is delete-marked. -/
def sDeletedKeyed : QState := { QS0 with recs := [mkDelRec 5] }

/-- Counterexample to C5 as stated: a keyed read whose only matching
record is delete-marked hands zero rows to the processing callback yet
returns DB_SUCCESS — under the claim ("processed" = handed to the
processing callback; a keyed search with no processed row returns
DB_RECORD_NOT_FOUND) this call would have to return DB_RECORD_NOT_FOUND.
The code counts the PROCESS comparator verdict that survived MVCC
resolution even though the record was not handed to the callback. -/
theorem read_keyed_unprocessed_counterexample :
    (QueryExecutor.read (some 5) cbEq sDeletedKeyed).1 = .DB_SUCCESS ∧
    (QueryExecutor.read (some 5) cbEq sDeletedKeyed).2.2.processedLog =
      [] ∧
    (QueryExecutor.read (some 5) cbEq sDeletedKeyed).1 ≠
      .DB_RECORD_NOT_FOUND := by
  decide

/-- Witness for the amended C5 at the same world: the delete-marked
match is counted, so the keyed read reports DB_SUCCESS. -/
theorem read_status_classification_witness :
    (QueryExecutor.read (some 5) cbEq sDeletedKeyed).1 = .DB_SUCCESS := by
  have h := read_status_classification (some 5) cbEq sDeletedKeyed
    (QueryExecutor.read (some 5) cbEq sDeletedKeyed).1
    (QueryExecutor.read (some 5) cbEq sDeletedKeyed).2.1
    (QueryExecutor.read (some 5) cbEq sDeletedKeyed).2.2
    rfl rfl rfl
  exact (h (by decide)).1.mpr (Or.inl (by decide))

/-- Folding MVCC traces never touches the mini-transaction counters. -/
lemma mvccFold_mtr (m : MvccResult) (s : QState) :
    (mvccFold m s).mtrStarts = s.mtrStarts ∧
    (mvccFold m s).mtrCommits = s.mtrCommits := by
  simp only [mvccFold, logProcessed]
  repeat' split
  all_goals exact ⟨rfl, rfl⟩

/-- read's scan loop performs no mini-transaction start or commit. -/
lemma read_scan_mtr (tuple : Option Nat) (cb : RecordCallback)
    (fuel : Nat) : ∀ (pos m : Nat) (s : QState),
    (QueryExecutor.read_scan tuple cb fuel pos m s).state.mtrStarts =
      s.mtrStarts ∧
    (QueryExecutor.read_scan tuple cb fuel pos m s).state.mtrCommits =
      s.mtrCommits := by
  induction fuel with
  | zero => intro pos m s; exact ⟨rfl, rfl⟩
  | succ n ih =>
    intro pos m s
    simp only [QueryExecutor.read_scan]
    by_cases h1 : pos < s.recs.length
    · simp only [if_pos h1]
      cases hcmp : cb.compare tuple (s.recs.getD pos dRec).key with
      | STOP => exact ⟨rfl, rfl⟩
      | SKIP => exact ih (pos + 1) m s
      | PROCESS =>
        by_cases hstop : (QueryExecutor.process_record_with_mvcc s.trx
              (s.recs.getD pos dRec) cb true).error ≠ .DB_SUCCESS ∨
            (QueryExecutor.process_record_with_mvcc s.trx
              (s.recs.getD pos dRec) cb true).continue_processing = false
        · simp only [if_pos hstop, ReadScanOut.state]
          constructor
          · rw [recordErrIf_mtrStarts]
            exact (mvccFold_mtr _ s).1
          · rw [recordErrIf_mtrCommits]
            exact (mvccFold_mtr _ s).2
        · simp only [if_neg hstop]
          have hm := mvccFold_mtr (QueryExecutor.process_record_with_mvcc
            s.trx (s.recs.getD pos dRec) cb true) s
          have := ih (pos + 1) (m + 1)
            (mvccFold (QueryExecutor.process_record_with_mvcc s.trx
              (s.recs.getD pos dRec) cb true) s)
          exact ⟨this.1.trans hm.1, this.2.trans hm.2⟩
    · simp only [if_neg h1]; exact ⟨rfl, rfl⟩

/-- read balances mini-transaction starts and commits on every return
path. -/
lemma read_mtr (tuple : Option Nat) (cb : RecordCallback) (s : QState) :
    (QueryExecutor.read tuple cb s).2.2.mtrStarts + s.mtrCommits =
      (QueryExecutor.read tuple cb s).2.2.mtrCommits + s.mtrStarts := by
  simp only [QueryExecutor.read]
  by_cases ho : (takeOpen (openTrxViewState (mtrStart s))).1 ≠ .DB_SUCCESS
  · rw [if_pos ho]
    simp [mtrCommit, takeOpen, takeOracle, openTrxViewState, mtrStart]
    omega
  · rw [if_neg ho]
    generalize (match tuple with
      | some t =>
        lowerBound ((takeOpen (openTrxViewState (mtrStart s))).2).recs t
      | none => 0) = pos0
    have hm := read_scan_mtr tuple cb
      ((takeOpen (openTrxViewState (mtrStart s))).2).recs.length pos0 0
      ((takeOpen (openTrxViewState (mtrStart s))).2)
    cases hscan : QueryExecutor.read_scan tuple cb
        ((takeOpen (openTrxViewState (mtrStart s))).2).recs.length pos0 0
        ((takeOpen (openTrxViewState (mtrStart s))).2) with
    | early err2 m2 sB =>
      rw [hscan] at hm
      simp only [ReadScanOut.state] at hm
      have h1 : sB.mtrStarts = s.mtrStarts + 1 := hm.1
      have h2 : sB.mtrCommits = s.mtrCommits := hm.2
      simp only [mtrCommit]
      omega
    | finished m2 sB =>
      rw [hscan] at hm
      simp only [ReadScanOut.state] at hm
      have h1 : sB.mtrStarts = s.mtrStarts + 1 := hm.1
      have h2 : sB.mtrCommits = s.mtrCommits := hm.2
      simp only [mtrCommit]
      omega

/-- mvccFold leaves the start counter unchanged. -/
@[simp] lemma mvccFold_mtrStarts (m : MvccResult) (s : QState) :
    (mvccFold m s).mtrStarts = s.mtrStarts := (mvccFold_mtr m s).1

/-- mvccFold leaves the commit counter unchanged. -/
@[simp] lemma mvccFold_mtrCommits (m : MvccResult) (s : QState) :
    (mvccFold m s).mtrCommits = s.mtrCommits := (mvccFold_mtr m s).2

/-- func_exit commits exactly once. -/
lemma delFuncExit_mtr (e : dberr) (cnt : Nat) (s : QState) :
    (QueryExecutor.delFuncExit e cnt s).2.2.mtrStarts = s.mtrStarts ∧
    (QueryExecutor.delFuncExit e cnt s).2.2.mtrCommits =
      s.mtrCommits + 1 := by
  simp only [QueryExecutor.delFuncExit]
  repeat' split
  all_goals simp [mtrCommit]

/-- delete_record balances mini-transaction starts and commits on every
terminating path, across lock-wait retries. -/
lemma delete_record_go_mtr (tuple : Nat) (rfuel : Nat) :
    ∀ (cnt : Nat) (s : QState) (out : dberr × Nat × QState),
    QueryExecutor.delete_record_go tuple rfuel cnt s = some out →
    out.2.2.mtrStarts + s.mtrCommits =
      out.2.2.mtrCommits + s.mtrStarts := by
  induction rfuel with
  | zero =>
    intro cnt s out h
    simp [QueryExecutor.delete_record_go] at h
  | succ n ih =>
    intro cnt s out h
    simp only [QueryExecutor.delete_record_go] at h
    by_cases ho : (takeOpen (mtrStart s)).1 ≠ .DB_SUCCESS
    · rw [if_pos ho] at h
      have hX := Option.some.inj h
      rw [← hX]
      have hd := delFuncExit_mtr (takeOpen (mtrStart s)).1 cnt
        (takeOpen (mtrStart s)).2
      have e1 : ((takeOpen (mtrStart s)).2).mtrStarts = s.mtrStarts + 1 :=
        rfl
      have e2 : ((takeOpen (mtrStart s)).2).mtrCommits = s.mtrCommits :=
        rfl
      omega
    · rw [if_neg ho] at h
      cases hscan : QueryExecutor.dr_scan tuple
          ((takeOpen (mtrStart s)).2).recs.length
          (lowerBound ((takeOpen (mtrStart s)).2).recs tuple) cnt
          ((takeOpen (mtrStart s)).2) with
      | done derr cntB sB =>
        rw [hscan] at h
        have hmtr := dr_scan_mtr tuple ((takeOpen (mtrStart s)).2).recs.length
          (lowerBound ((takeOpen (mtrStart s)).2).recs tuple) cnt
          ((takeOpen (mtrStart s)).2)
        rw [hscan] at hmtr
        obtain ⟨hb1, hb2, _⟩ := hmtr
        have hX := Option.some.inj h
        rw [← hX]
        have hd := delFuncExit_mtr derr cntB sB
        have e1 : ((takeOpen (mtrStart s)).2).mtrStarts = s.mtrStarts + 1 :=
          rfl
        have e2 : ((takeOpen (mtrStart s)).2).mtrCommits = s.mtrCommits :=
          rfl
        simp only [DelScanOut.state] at hb1 hb2
        omega
      | wait cntB sB =>
        rw [hscan] at h
        have hmtr := dr_scan_mtr tuple ((takeOpen (mtrStart s)).2).recs.length
          (lowerBound ((takeOpen (mtrStart s)).2).recs tuple) cnt
          ((takeOpen (mtrStart s)).2)
        rw [hscan] at hmtr
        obtain ⟨hb1, hb2, _⟩ := hmtr
        simp only [DelScanOut.state] at hb1 hb2
        have e1 : ((takeOpen (mtrStart s)).2).mtrStarts = s.mtrStarts + 1 :=
          rfl
        have e2 : ((takeOpen (mtrStart s)).2).mtrCommits = s.mtrCommits :=
          rfl
        simp only [] at h
        by_cases hw : (QueryExecutor.handle_wait .DB_LOCK_WAIT false
            (mtrCommit sB)).1 ≠ .DB_SUCCESS
        · rw [if_pos hw] at h
          have hX := Option.some.inj h
          rw [← hX]
          simp [mtrCommit]
          omega
        · rw [if_neg hw] at h
          have hrec := ih cntB _ out h
          have g1 : (QueryExecutor.handle_wait .DB_LOCK_WAIT false
              (mtrCommit sB)).2.mtrStarts = sB.mtrStarts := by
            rw [handle_wait_mtrStarts]; rfl
          have g2 : (QueryExecutor.handle_wait .DB_LOCK_WAIT false
              (mtrCommit sB)).2.mtrCommits = sB.mtrCommits + 1 := by
            rw [handle_wait_mtrCommits]; rfl
          omega

/-- delete_all's scan loop performs no mini-transaction start or
commit. -/
lemma da_scan_mtr (fuel : Nat) : ∀ (pos : Nat) (s : QState),
    (QueryExecutor.da_scan fuel pos s).state.mtrStarts = s.mtrStarts ∧
    (QueryExecutor.da_scan fuel pos s).state.mtrCommits = s.mtrCommits := by
  induction fuel with
  | zero => intro pos s; exact ⟨rfl, rfl⟩
  | succ n ih =>
    intro pos s
    simp only [QueryExecutor.da_scan]
    by_cases h1 : pos < s.recs.length
    · simp only [if_pos h1]
      by_cases h2 : (s.recs.getD pos dRec).deleted
      · simp only [if_pos h2]; exact ih (pos + 1) s
      · simp only [if_neg h2]
        by_cases h3 : (s.recs.getD pos dRec).minRec
        · simp only [if_pos h3]; exact ih (pos + 1) s
        · simp only [if_neg h3]
          by_cases h4 : (takeLock s).1 = .DB_LOCK_WAIT
          · simp only [if_pos h4]; exact ⟨rfl, rfl⟩
          · simp only [if_neg h4]
            by_cases h5 : (takeLock s).1 ≠ .DB_SUCCESS ∧
                (takeLock s).1 ≠ .DB_SUCCESS_LOCKED_REC
            · simp only [if_pos h5]; exact ⟨rfl, rfl⟩
            · simp only [if_neg h5]
              by_cases h6 : (takeMark (takeLock s).2).1 ≠ .DB_SUCCESS
              · simp only [if_pos h6]; exact ⟨rfl, rfl⟩
              · simp only [if_neg h6]
                exact ih (pos + 1) _
    · simp only [if_neg h1]; exact ⟨rfl, rfl⟩

/-- delete_all balances mini-transaction starts and commits on every
terminating path. -/
lemma delete_all_mtr (rfuel : Nat) : ∀ (s : QState) (out : dberr × QState),
    QueryExecutor.delete_all rfuel s = some out →
    out.2.mtrStarts + s.mtrCommits = out.2.mtrCommits + s.mtrStarts := by
  induction rfuel with
  | zero =>
    intro s out h
    simp [QueryExecutor.delete_all] at h
  | succ n ih =>
    intro s out h
    simp only [QueryExecutor.delete_all] at h
    by_cases ho : (takeOpen (mtrStart s)).1 ≠ .DB_SUCCESS
    · rw [if_pos ho] at h
      have hX := Option.some.inj h
      rw [← hX]
      have e1 : ((takeOpen (mtrStart s)).2).mtrStarts = s.mtrStarts + 1 :=
        rfl
      have e2 : ((takeOpen (mtrStart s)).2).mtrCommits = s.mtrCommits :=
        rfl
      simp [mtrCommit]
      omega
    · rw [if_neg ho] at h
      cases hscan : QueryExecutor.da_scan
          ((takeOpen (mtrStart s)).2).recs.length 0
          ((takeOpen (mtrStart s)).2) with
      | done derr sB =>
        rw [hscan] at h
        have hmtr := da_scan_mtr ((takeOpen (mtrStart s)).2).recs.length 0
          ((takeOpen (mtrStart s)).2)
        rw [hscan] at hmtr
        simp only [DaScanOut.state] at hmtr
        obtain ⟨hb1, hb2⟩ := hmtr
        have hX := Option.some.inj h
        rw [← hX]
        have e1 : ((takeOpen (mtrStart s)).2).mtrStarts = s.mtrStarts + 1 :=
          rfl
        have e2 : ((takeOpen (mtrStart s)).2).mtrCommits = s.mtrCommits :=
          rfl
        simp [mtrCommit]
        omega
      | wait sB =>
        rw [hscan] at h
        have hmtr := da_scan_mtr ((takeOpen (mtrStart s)).2).recs.length 0
          ((takeOpen (mtrStart s)).2)
        rw [hscan] at hmtr
        simp only [DaScanOut.state] at hmtr
        obtain ⟨hb1, hb2⟩ := hmtr
        have e1 : ((takeOpen (mtrStart s)).2).mtrStarts = s.mtrStarts + 1 :=
          rfl
        have e2 : ((takeOpen (mtrStart s)).2).mtrCommits = s.mtrCommits :=
          rfl
        simp only [] at h
        by_cases hw : (QueryExecutor.handle_wait .DB_LOCK_WAIT false
            (mtrCommit sB)).1 ≠ .DB_SUCCESS
        · rw [if_pos hw] at h
          have hX := Option.some.inj h
          rw [← hX]
          simp [mtrCommit]
          omega
        · rw [if_neg hw] at h
          have hrec := ih _ out h
          have g1 : (QueryExecutor.handle_wait .DB_LOCK_WAIT false
              (mtrCommit sB)).2.mtrStarts = sB.mtrStarts := by
            rw [handle_wait_mtrStarts]; rfl
          have g2 : (QueryExecutor.handle_wait .DB_LOCK_WAIT false
              (mtrCommit sB)).2.mtrCommits = sB.mtrCommits + 1 := by
            rw [handle_wait_mtrCommits]; rfl
          omega

/-- The secondary-to-clustered lookup performs no mini-transaction start
or commit (its savepoint rollback keeps the caller's mtr open). -/
lemma lookup_mtr (cb : RecordCallback) (sr : SRec) (m : Nat) (s : QState) :
    (QueryExecutor.lookup_clustered_record cb sr m s).2.2.2.mtrStarts =
      s.mtrStarts ∧
    (QueryExecutor.lookup_clustered_record cb sr m s).2.2.2.mtrCommits =
      s.mtrCommits := by
  simp only [QueryExecutor.lookup_clustered_record]
  repeat' split
  all_goals simp [takeOpen, takeOracle]

/-- read_by_index's scan loop performs no mini-transaction start or
commit. -/
lemma rbi_scan_mtr (tuple : Nat) (cb : RecordCallback) (fuel : Nat) :
    ∀ (pos m : Nat) (s : QState),
    (QueryExecutor.rbi_scan tuple cb fuel pos m s).state.mtrStarts =
      s.mtrStarts ∧
    (QueryExecutor.rbi_scan tuple cb fuel pos m s).state.mtrCommits =
      s.mtrCommits := by
  induction fuel with
  | zero => intro pos m s; exact ⟨rfl, rfl⟩
  | succ n ih =>
    intro pos m s
    simp only [QueryExecutor.rbi_scan]
    by_cases h1 : pos < s.secRecs.length
    · simp only [if_pos h1]
      cases hcmp : cb.compare (some tuple) (s.secRecs.getD pos ⟨0, 0⟩).key
        with
      | STOP => exact ⟨rfl, rfl⟩
      | SKIP => exact ih (pos + 1) m s
      | PROCESS =>
        have hl := lookup_mtr cb (s.secRecs.getD pos ⟨0, 0⟩) m s
        by_cases hstop : (QueryExecutor.lookup_clustered_record cb
              (s.secRecs.getD pos ⟨0, 0⟩) m s).1 ≠ .DB_SUCCESS ∨
            (QueryExecutor.lookup_clustered_record cb
              (s.secRecs.getD pos ⟨0, 0⟩) m s).2.1 = false
        · simp only [if_pos hstop, ReadScanOut.state]
          constructor
          · rw [recordErrIf_mtrStarts]; exact hl.1
          · rw [recordErrIf_mtrCommits]; exact hl.2
        · simp only [if_neg hstop]
          have := ih (pos + 1)
            (QueryExecutor.lookup_clustered_record cb
              (s.secRecs.getD pos ⟨0, 0⟩) m s).2.2.1
            (QueryExecutor.lookup_clustered_record cb
              (s.secRecs.getD pos ⟨0, 0⟩) m s).2.2.2
          exact ⟨this.1.trans hl.1, this.2.trans hl.2⟩
    · simp only [if_neg h1]; exact ⟨rfl, rfl⟩

/-- read_by_index balances mini-transaction starts and commits on every
return path. -/
lemma read_by_index_mtr (tuple : Nat) (cb : RecordCallback) (s : QState) :
    (QueryExecutor.read_by_index tuple cb s).2.2.mtrStarts + s.mtrCommits =
      (QueryExecutor.read_by_index tuple cb s).2.2.mtrCommits +
        s.mtrStarts := by
  simp only [QueryExecutor.read_by_index]
  by_cases ho : (takeOpen (openTrxViewState (mtrStart s))).1 ≠ .DB_SUCCESS
  · rw [if_pos ho]
    simp [mtrCommit, takeOpen, takeOracle, openTrxViewState, mtrStart]
    omega
  · rw [if_neg ho]
    have hm := rbi_scan_mtr tuple cb
      ((takeOpen (openTrxViewState (mtrStart s))).2).secRecs.length
      (lowerBoundSec ((takeOpen (openTrxViewState (mtrStart s))).2).secRecs
        tuple) 0
      ((takeOpen (openTrxViewState (mtrStart s))).2)
    cases hscan : QueryExecutor.rbi_scan tuple cb
        ((takeOpen (openTrxViewState (mtrStart s))).2).secRecs.length
        (lowerBoundSec ((takeOpen (openTrxViewState (mtrStart s))).2).secRecs
          tuple) 0
        ((takeOpen (openTrxViewState (mtrStart s))).2) with
    | early err2 m2 sB =>
      rw [hscan] at hm
      simp only [ReadScanOut.state] at hm
      have h1 : sB.mtrStarts = s.mtrStarts + 1 := hm.1
      have h2 : sB.mtrCommits = s.mtrCommits := hm.2
      simp only [mtrCommit]
      omega
    | finished m2 sB =>
      rw [hscan] at hm
      simp only [ReadScanOut.state] at hm
      have h1 : sB.mtrStarts = s.mtrStarts + 1 := hm.1
      have h2 : sB.mtrCommits = s.mtrCommits := hm.2
      simp only [mtrCommit]
      omega

/-- select_for_update's mini-transaction discipline: balanced with the
mtr closed on every non-DB_SUCCESS return; on DB_SUCCESS exactly one
start is left uncommitted and the mtr is open. -/
lemma sfu_mtr (tuple : Nat) (cb : Option RecordCallback) (s : QState) :
    ((QueryExecutor.select_for_update tuple cb s).1 = .DB_SUCCESS →
      (QueryExecutor.select_for_update tuple cb s).2.mtrStarts +
          s.mtrCommits =
        (QueryExecutor.select_for_update tuple cb s).2.mtrCommits + 1 +
          s.mtrStarts ∧
      (QueryExecutor.select_for_update tuple cb s).2.mtrOpen = true) ∧
    ((QueryExecutor.select_for_update tuple cb s).1 ≠ .DB_SUCCESS →
      (QueryExecutor.select_for_update tuple cb s).2.mtrStarts +
          s.mtrCommits =
        (QueryExecutor.select_for_update tuple cb s).2.mtrCommits +
          s.mtrStarts ∧
      (QueryExecutor.select_for_update tuple cb s).2.mtrOpen = false) := by
  simp only [QueryExecutor.select_for_update]
  repeat' split
  all_goals constructor
  all_goals intro hres
  all_goals first
    | exact absurd rfl hres
    | exact absurd hres (by assumption)
    | exact absurd hres (And.left (by assumption))
    | (refine ⟨?_, ?_⟩ <;>
        simp [mtrCommit, takeOpen, takeOracle, openTrxViewState,
          mtrStart, takeLock, logProcessed] <;> omega)
    | simp at hres

/-- update_record performs no mini-transaction start or commit. -/
lemma update_record_mtr (upd : List UpdField) (s : QState) :
    (QueryExecutor.update_record upd s).2.2.mtrStarts = s.mtrStarts ∧
    (QueryExecutor.update_record upd s).2.2.mtrCommits = s.mtrCommits := by
  simp only [QueryExecutor.update_record, QueryExecutor.update_escalate]
  repeat' split
  all_goals simp [takeInPlace, takeOpt, takePess, takeExtern, takeOracle]

/-- replace_record balances mini-transaction starts and commits on every
terminating path: it commits the mini-transaction select_for_update
leaves open after a successful update. -/
lemma replace_record_mtr (tuple : Nat) (upd : List UpdField)
    (fuel : Nat) : ∀ (s : QState) (out : dberr × QState),
    QueryExecutor.replace_record tuple upd fuel s = some out →
    out.2.mtrStarts + s.mtrCommits = out.2.mtrCommits + s.mtrStarts := by
  induction fuel with
  | zero =>
    intro s out h
    simp [QueryExecutor.replace_record] at h
  | succ n ih =>
    intro s out h
    simp only [QueryExecutor.replace_record] at h
    by_cases h1 : (QueryExecutor.select_for_update tuple none s).1 =
        .DB_SUCCESS
    · rw [if_pos h1] at h
      have hX := Option.some.inj h
      rw [← hX]
      have hs := (sfu_mtr tuple none s).1 h1
      have hu := update_record_mtr upd
        (QueryExecutor.select_for_update tuple none s).2
      simp [mtrCommit]
      omega
    · rw [if_neg h1] at h
      have hs := (sfu_mtr tuple none s).2 h1
      by_cases h2 : (QueryExecutor.select_for_update tuple none s).1 =
          .DB_RECORD_NOT_FOUND
      · rw [if_pos h2] at h
        have hX := Option.some.inj h
        rw [← hX]
        simp [QueryExecutor.insert_record, takeInsert, takeOracle]
        omega
      · rw [if_neg h2] at h
        by_cases h3 : (QueryExecutor.select_for_update tuple none s).1 =
            .DB_LOCK_WAIT
        · rw [if_pos h3] at h
          have hrec := ih _ out h
          omega
        · rw [if_neg h3] at h
          have hX := Option.some.inj h
          rw [← hX]
          exact hs.1

/-- A world with one lockable record and no transaction. -/
def sC8open : QState := { QS0 with recs := [mkRec 5] }

/-- Counterexample to C8 as stated: select_for_update's DB_SUCCESS
return path performs one mini-transaction start and zero commits before
returning — the claim requires starts to equal commits on every return
path of every public operation, including this one. -/
theorem select_for_update_mtr_unbalanced_counterexample :
    (QueryExecutor.select_for_update 5 none sC8open).1 = .DB_SUCCESS ∧
    (QueryExecutor.select_for_update 5 none sC8open).2.mtrStarts = 1 ∧
    (QueryExecutor.select_for_update 5 none sC8open).2.mtrCommits = 0 ∧
    (QueryExecutor.select_for_update 5 none sC8open).2.mtrOpen = true := by
  decide

/-- C8 amended: every public QueryExecutor operation balances
mini-transaction starts against commits on every return path —
delete_record and delete_all across lock-wait retries, read and
read_by_index on every scan exit, replace_record on every terminating
path, and update_record, insert_record, and handle_wait touching no
mini-transaction at all — except select_for_update's DB_SUCCESS return,
which intentionally leaves exactly one start uncommitted (its
mini-transaction open) for the caller; its every other return path is
balanced with the mini-transaction closed. -/
theorem mtr_starts_commits_balance_amended :
    (∀ (tuple rfuel : Nat) (s : QState) (out : dberr × Nat × QState),
      QueryExecutor.delete_record tuple rfuel s = some out →
      out.2.2.mtrStarts + s.mtrCommits =
        out.2.2.mtrCommits + s.mtrStarts) ∧
    (∀ (rfuel : Nat) (s : QState) (out : dberr × QState),
      QueryExecutor.delete_all rfuel s = some out →
      out.2.mtrStarts + s.mtrCommits = out.2.mtrCommits + s.mtrStarts) ∧
    (∀ (tuple : Option Nat) (cb : RecordCallback) (s : QState),
      (QueryExecutor.read tuple cb s).2.2.mtrStarts + s.mtrCommits =
        (QueryExecutor.read tuple cb s).2.2.mtrCommits + s.mtrStarts) ∧
    (∀ (tuple : Nat) (cb : RecordCallback) (s : QState),
      (QueryExecutor.read_by_index tuple cb s).2.2.mtrStarts +
          s.mtrCommits =
        (QueryExecutor.read_by_index tuple cb s).2.2.mtrCommits +
          s.mtrStarts) ∧
    (∀ (tuple : Nat) (upd : List UpdField) (fuel : Nat) (s : QState)
        (out : dberr × QState),
      QueryExecutor.replace_record tuple upd fuel s = some out →
      out.2.mtrStarts + s.mtrCommits = out.2.mtrCommits + s.mtrStarts) ∧
    (∀ (upd : List UpdField) (s : QState),
      (QueryExecutor.update_record upd s).2.2.mtrStarts = s.mtrStarts ∧
      (QueryExecutor.update_record upd s).2.2.mtrCommits = s.mtrCommits) ∧
    (∀ s : QState,
      (QueryExecutor.insert_record s).2.mtrStarts = s.mtrStarts ∧
      (QueryExecutor.insert_record s).2.mtrCommits = s.mtrCommits) ∧
    (∀ (e : dberr) (tl : Bool) (s : QState),
      (QueryExecutor.handle_wait e tl s).2.mtrStarts = s.mtrStarts ∧
      (QueryExecutor.handle_wait e tl s).2.mtrCommits = s.mtrCommits) ∧
    (∀ (tuple : Nat) (cb : Option RecordCallback) (s : QState),
      ((QueryExecutor.select_for_update tuple cb s).1 ≠ .DB_SUCCESS →
        (QueryExecutor.select_for_update tuple cb s).2.mtrStarts +
            s.mtrCommits =
          (QueryExecutor.select_for_update tuple cb s).2.mtrCommits +
            s.mtrStarts ∧
        (QueryExecutor.select_for_update tuple cb s).2.mtrOpen = false) ∧
      ((QueryExecutor.select_for_update tuple cb s).1 = .DB_SUCCESS →
        (QueryExecutor.select_for_update tuple cb s).2.mtrStarts +
            s.mtrCommits =
          (QueryExecutor.select_for_update tuple cb s).2.mtrCommits + 1 +
            s.mtrStarts ∧
        (QueryExecutor.select_for_update tuple cb s).2.mtrOpen = true)) := by
  refine ⟨fun t rf s out h => delete_record_go_mtr t rf 0 s out h,
    fun rf s out h => delete_all_mtr rf s out h,
    read_mtr, read_by_index_mtr,
    fun t u f s out h => replace_record_mtr t u f s out h,
    update_record_mtr, fun s => ⟨rfl, rfl⟩,
    fun e tl s =>
      ⟨handle_wait_mtrStarts e tl s, handle_wait_mtrCommits e tl s⟩,
    fun t cb s => ⟨(sfu_mtr t cb s).2, (sfu_mtr t cb s).1⟩⟩

/-- Witness for the amended C8: the one-record success run of
select_for_update leaves one start uncommitted; a full-table read is
balanced. -/
theorem mtr_starts_commits_balance_amended_witness :
    (QueryExecutor.select_for_update 5 none sC8open).2.mtrStarts +
        sC8open.mtrCommits =
      (QueryExecutor.select_for_update 5 none sC8open).2.mtrCommits + 1 +
        sC8open.mtrStarts ∧
    (QueryExecutor.read none cbEq sC8open).2.2.mtrStarts +
        sC8open.mtrCommits =
      (QueryExecutor.read none cbEq sC8open).2.2.mtrCommits +
        sC8open.mtrStarts := by
  refine ⟨((mtr_starts_commits_balance_amended.2.2.2.2.2.2.2.2
    5 none sC8open).2 (by decide)).1,
    mtr_starts_commits_balance_amended.2.2.1 none cbEq sC8open⟩
